import Mathlib

/-!
AgriHealthApp backend: diagnosis workflow and symptom-match scorer.

A shallow embedding of the Express/Sequelize backend
(`agrihealthapp-backend/src/controllers/diagnosisController.js`,
`diseaseController.js` and the three models they use).

Modelling conventions

* A table with a primary key is a finite map from the key to the remaining
  columns (`Db.diagnoses`); the two disease tables are lists of rows in storage
  order, which is the order a `findAll` without an `order` clause yields.
* `order: [['name', 'ASC']]` is a stable sort by code-point order of the name.
* `Math.random()` is an explicit argument, a rational number; the arithmetic
  on it is exact (IEEE rounding of `0.6 + r * 0.4` is idealised away) and
  `toFixed(2)` rounds half up to two decimals.
* A handler is a function from the state and the request to the new state and
  the HTTP response. The state also logs the calls of `uploadToS3`; the outcome
  of an upload is part of the request.
* The primary key of a new row is an explicit argument of `submitDiagnosis`.
* `ILIKE` is `LIKE` on the case-folded pattern and text (ASCII letters), with
  `%`, `_` and the backslash escape; `Array.prototype.sort()` orders strings by
  UTF-16 code units.
* The client-side `processDiseaseResponse` of
  `agrihealthapp/src/services/PlantDiseaseDetectionService.js` takes
  probabilities as rationals.
-/

namespace AgriHealth

/-- Primary keys and user ids (`DataTypes.UUID`). -/
abbrev Uuid := String

/-- Column `Diagnosis.type`: `DataTypes.ENUM('plant', 'livestock')`. -/
inductive DiagnosisType where
  | plant
  | livestock
  deriving DecidableEq, Repr

/-- Column `Diagnosis.status`: `DataTypes.ENUM('pending', 'completed', 'expert_review')`. -/
inductive Status where
  | pending
  | completed
  | expert_review
  deriving DecidableEq, Repr

/-- A row of `PlantDisease` or `LivestockDisease`, restricted to the columns the
controllers read. `speciesKey` is the column `plantType` of a plant disease and
the column `animalType` of a livestock disease. -/
structure DiseaseEntry where
  id : Uuid
  name : String
  speciesKey : String
  description : String
  symptoms : List String
  deriving DecidableEq, Repr

/-- A row of `Diagnosis` without its primary key (the key is the index of
`Db.diagnoses`). -/
structure Diagnosis where
  userId : Uuid
  type : DiagnosisType
  speciesName : String
  symptoms : List String
  imageUrl : Option String
  temperature : Option ℚ
  diagnosisResult : Option String
  confidence : Option ℚ
  status : Status
  notes : Option String
  location : Option String
  deriving DecidableEq, Repr

/-- What `uploadToS3(req.file)` does with an attached file. -/
inductive UploadOutcome where
  | failed (message : String)
  | stored (location : String)
  deriving DecidableEq, Repr

/-- The state the handlers act on: both disease tables in storage order, the
diagnosis table keyed by primary key, and the calls of `uploadToS3` made so
far with their outcomes, latest first. -/
structure Db where
  plantDiseases : List DiseaseEntry
  livestockDiseases : List DiseaseEntry
  diagnoses : Uuid → Option Diagnosis
  uploads : List UploadOutcome := []

/-- The value found under `req.body.symptoms`. -/
inductive BodyValue where
  | absent
  | text (s : String)
  | list (xs : List String)
  deriving DecidableEq, Repr

/-- What the diagnosis handlers answer. -/
inductive Response where
  | badRequest (message : String)
  | notFound (message : String)
  | ok (id : Uuid) (diagnosis : Diagnosis) (diseaseDetails : Option DiseaseEntry)
  | created (id : Uuid) (diagnosis : Option Diagnosis)
  | serverError (message : String) (error : String)
  deriving DecidableEq, Repr

/-- What the catalog handlers answer. -/
inductive CatalogResponse where
  | badRequest (message : String)
  | ok (diseases : List DiseaseEntry)
  | notFound (message : String)
  | disease (disease : DiseaseEntry)
  | search (plantDiseases livestockDiseases : List DiseaseEntry) (totalResults : Nat)
  | symptoms (symptoms : List String) (count : Nat)
  | serverError (message : String) (error : String)
  deriving DecidableEq, Repr

/-! ## Store access -/

/-- The disease table a diagnosis type selects. -/
def Db.partition (db : Db) : DiagnosisType → List DiseaseEntry
  | .plant => db.plantDiseases
  | .livestock => db.livestockDiseases

/-- `PlantDisease.findAll({ where: { plantType: species } })`, respectively
`LivestockDisease.findAll({ where: { animalType: species } })`: the matching
rows in storage order. -/
def findAllBySpecies (db : Db) (type : DiagnosisType) (species : String) : List DiseaseEntry :=
  (db.partition type).filter (fun e => e.speciesKey == species)

/-- `findOne({ where: { name } })` on the disease table of `type`. -/
def findOneByName (db : Db) (type : DiagnosisType) (name : String) : Option DiseaseEntry :=
  (db.partition type).find? (fun e => e.name == name)

/-- `Diagnosis.findOne({ where: { id, userId } })`. -/
def findOneDiagnosis (db : Db) (id userId : Uuid) : Option Diagnosis :=
  match db.diagnoses id with
  | some d => if d.userId = userId then some d else none
  | none => none

/-- `Diagnosis.findByPk(id)`. -/
def findByPk (db : Db) (id : Uuid) : Option Diagnosis :=
  db.diagnoses id

/-- Writes the row `d` under the primary key `id` (the effect of
`diagnosis.update(...)` on the table). -/
def Db.put (db : Db) (id : Uuid) (d : Diagnosis) : Db :=
  { db with diagnoses := fun k => if k = id then some d else db.diagnoses k }

/-- Records the call `uploadToS3(req.file)`; without a file there is no call. -/
def Db.logUpload (db : Db) : Option UploadOutcome → Db
  | none => db
  | some outcome => { db with uploads := outcome :: db.uploads }

/-- Code-point lexicographic order on character lists. -/
def lexLe : List Char → List Char → Bool
  | [], _ => true
  | _ :: _, [] => false
  | a :: as, b :: bs => a.toNat < b.toNat || (a.toNat == b.toNat && lexLe as bs)

/-- The order of `order: [['name', 'ASC']]`. -/
def nameLe (a b : DiseaseEntry) : Prop := lexLe a.name.data b.name.data = true

instance : DecidableRel nameLe :=
  fun a b => inferInstanceAs (Decidable (lexLe a.name.data b.name.data = true))

/-- `findAll({ order: [['name', 'ASC']] })` applied to rows already selected. -/
def orderByName (rows : List DiseaseEntry) : List DiseaseEntry :=
  rows.insertionSort nameLe

/-! ## Symptom-match scorer (`diagnosisController.js`, lines 211-220) -/

/-- `symptoms.filter(symptom => current.symptoms.includes(symptom))`. -/
def matchingSymptoms (symptoms : List String) (current : DiseaseEntry) : List String :=
  symptoms.filter (fun symptom => current.symptoms.contains symptom)

/-- `matchingSymptoms.length`. -/
def matchCount (symptoms : List String) (current : DiseaseEntry) : Nat :=
  (matchingSymptoms symptoms current).length

/-- The accumulator of the reduce: `{ disease, matchCount }`. -/
structure Best where
  disease : DiseaseEntry
  matchCount : Nat
  deriving DecidableEq, Repr

/-- The callback of the reduce; `none` is the seed `null`. -/
def reducer (symptoms : List String) (best : Option Best) (current : DiseaseEntry) : Option Best :=
  match best with
  | none => some { disease := current, matchCount := matchCount symptoms current }
  | some b =>
    if matchCount symptoms current > b.matchCount then
      some { disease := current, matchCount := matchCount symptoms current }
    else
      some b

/-- `diseases.reduce(callback, null)`. -/
def reduceBest (symptoms : List String) (diseases : List DiseaseEntry) : Option Best :=
  diseases.foldl (reducer symptoms) none

/-- `diseases.reduce(callback, null)?.disease`. -/
def selectDisease (symptoms : List String) (diseases : List DiseaseEntry) : Option DiseaseEntry :=
  (reduceBest symptoms diseases).map (fun b => b.disease)

/-- `Number.prototype.toFixed(2)` followed by `parseFloat`: the nearest
multiple of 1/100, the larger one on a tie. -/
def toFixed2 (x : ℚ) : ℚ := (⌊x * 100 + 1 / 2⌋ : ℤ) / 100

/-- `parseFloat((0.6 + Math.random() * 0.4).toFixed(2))`. -/
def symptomConfidence (random : ℚ) : ℚ := toFixed2 (0.6 + random * 0.4)

/-- `parseFloat((0.7 + Math.random() * 0.3).toFixed(2))`. -/
def imageConfidence (random : ℚ) : ℚ := toFixed2 (0.7 + random * 0.3)

/-! ## Request values -/

/-- JavaScript falsiness of a body value: missing, or the empty string. An
array, also the empty one, is truthy. -/
def BodyValue.falsy : BodyValue → Bool
  | .absent => true
  | .text s => s == ""
  | .list _ => false

/-- `Array.isArray(value)`. -/
def BodyValue.isArray : BodyValue → Bool
  | .list _ => true
  | _ => false

/-- `Array.isArray(symptoms) ? symptoms : [symptoms]` for a truthy value. -/
def BodyValue.toArray : BodyValue → List String
  | .absent => []
  | .text s => [s]
  | .list xs => xs

/-- JavaScript truthiness of an optional string field. -/
def truthy : Option String → Bool
  | some s => s != ""
  | none => false

/-- The two accepted values of a `type` parameter. -/
def parseType (type : String) : Option DiagnosisType :=
  if type = "plant" then some .plant
  else if type = "livestock" then some .livestock
  else none

/-- The request of `POST /api/diagnosis`: `req.user.id`, the fields of
`req.body` and `req.file` together with the outcome of its upload. -/
structure SubmitRequest where
  userId : Uuid
  type : Option String
  speciesName : Option String
  symptoms : BodyValue
  temperature : Option ℚ
  notes : Option String
  location : Option String
  file : Option UploadOutcome
  deriving DecidableEq, Repr

/-! ## Diagnosis workflow (`diagnosisController.js`) -/

/-- Lines 124-136 and 268-280: the detail lookup joined to a diagnosis. -/
def diseaseDetails (db : Db) (diagnosis : Diagnosis) : Option DiseaseEntry :=
  if truthy diagnosis.diagnosisResult then
    findOneByName db diagnosis.type (diagnosis.diagnosisResult.getD "")
  else
    none

/-- Lines 203-249: the disease the symptom update settles on, if any. -/
def possibleDisease (db : Db) (diagnosis : Diagnosis) (symptoms : List String) :
    Option DiseaseEntry :=
  let diseases := findAllBySpecies db diagnosis.type diagnosis.speciesName
  if diseases.length > 0 then selectDisease symptoms diseases else none

/-- Lines 251-263: the row after the final `diagnosis.update`. -/
def resolve (diagnosis : Diagnosis) (found : Option DiseaseEntry) (random : ℚ) : Diagnosis :=
  match found with
  | some disease =>
    { diagnosis with
      diagnosisResult := some disease.name
      confidence := some (symptomConfidence random)
      status := .completed }
  | none => { diagnosis with status := .expert_review }

/-- Handler `exports.updateDiagnosisWithSymptoms` (lines 172-294). `random` is the
value `Math.random()` yields if it is called. -/
def updateDiagnosisWithSymptoms (db : Db) (id userId : Uuid) (body : BodyValue)
    (random : ℚ) : Db × Response :=
  if body.falsy || !body.isArray || body.toArray.length == 0 then
    (db, .badRequest "Symptoms array is required")
  else
    let symptoms := body.toArray
    match findOneDiagnosis db id userId with
    | none => (db, .notFound "Diagnosis not found")
    | some found =>
      let diagnosis := { found with symptoms := symptoms, status := .pending }
      let db1 := db.put id diagnosis
      let db2 := db1.put id (resolve diagnosis (possibleDisease db1 diagnosis symptoms) random)
      match findByPk db2 id with
      | none => (db2, .serverError "Error updating diagnosis"
          "Cannot read properties of null (reading 'diagnosisResult')")
      | some updatedDiagnosis =>
        (db2, .ok id updatedDiagnosis (diseaseDetails db2 updatedDiagnosis))

/-- Handler `exports.getDiagnosisById` (lines 111-149). -/
def getDiagnosisById (db : Db) (id userId : Uuid) : Response :=
  match findOneDiagnosis db id userId with
  | none => .notFound "Diagnosis not found"
  | some diagnosis => .ok id diagnosis (diseaseDetails db diagnosis)

/-- `Math.floor(Math.random() * diseases.length)` used as an index:
`diseases[randomIndex]`, `undefined` outside the array. -/
def pickRandom (diseases : List DiseaseEntry) (random : ℚ) : Option DiseaseEntry :=
  let randomIndex : ℤ := ⌊random * diseases.length⌋
  if 0 ≤ randomIndex then diseases[randomIndex.toNat]? else none

/-- Lines 52-92 of `submitDiagnosis`: the image-driven placeholder
identification applied to the row just created. -/
def processImage (db : Db) (newId : Uuid) (diagnosis : Diagnosis)
    (randomIndex randomConfidence : ℚ) : Db :=
  if truthy diagnosis.imageUrl then
    let diseases := findAllBySpecies db diagnosis.type diagnosis.speciesName
    let found := if diseases.length > 0 then pickRandom diseases randomIndex else none
    match found with
    | some disease =>
      db.put newId
        { diagnosis with
          diagnosisResult := some disease.name
          confidence := some (imageConfidence randomConfidence)
          status := .completed }
    | none => db
  else
    db

/-- Lines 24-37 of `submitDiagnosis`: `imageUrl` after the optional upload, or
the message of the upload error. -/
def uploadImage : Option UploadOutcome → Except String (Option String)
  | none => .ok none
  | some (.failed message) => .error message
  | some (.stored location) => .ok (some location)

/-- Lines 39-100 of `submitDiagnosis`: `Diagnosis.create`, the image-driven
identification and the re-fetch. A primary key already in use makes `create`
throw, which the handler answers with 500. -/
def createDiagnosis (db : Db) (req : SubmitRequest) (type : DiagnosisType)
    (imageUrl : Option String) (newId : Uuid) (randomIndex randomConfidence : ℚ) :
    Db × Response :=
  match db.diagnoses newId with
  | some _ => (db, .serverError "Error submitting diagnosis" "Validation error")
  | none =>
    let diagnosis : Diagnosis :=
      { userId := req.userId
        type := type
        speciesName := req.speciesName.getD ""
        symptoms := req.symptoms.toArray
        imageUrl := imageUrl
        temperature := req.temperature
        diagnosisResult := none
        confidence := none
        status := .pending
        notes := req.notes
        location := req.location }
    let db1 := db.put newId diagnosis
    let db2 := processImage db1 newId diagnosis randomIndex randomConfidence
    (db2, .created newId (findByPk db2 newId))

/-- Handler `exports.submitDiagnosis` (lines 5-108). `newId` is the UUID the
store generates for the new row; `randomIndex` and `randomConfidence` are the
two values of `Math.random()`. -/
def submitDiagnosis (db : Db) (req : SubmitRequest) (newId : Uuid)
    (randomIndex randomConfidence : ℚ) : Db × Response :=
  if !truthy req.type || !truthy req.speciesName || req.symptoms.falsy then
    (db, .badRequest "Missing required fields: type, speciesName, symptoms")
  else
    match parseType (req.type.getD "") with
    | none => (db, .badRequest "Invalid diagnosis type. Must be \"plant\" or \"livestock\"")
    | some type =>
      match uploadImage req.file with
      | .error message =>
        (db.logUpload req.file, .serverError "Error uploading image" message)
      | .ok imageUrl =>
        createDiagnosis (db.logUpload req.file) req type imageUrl newId randomIndex
          randomConfidence

/-- The stores reachable from an empty diagnosis table by calls of
`submitDiagnosis` and `updateDiagnosisWithSymptoms`. -/
inductive Reachable : Db → Prop where
  | init (plantDiseases livestockDiseases : List DiseaseEntry) :
      Reachable { plantDiseases := plantDiseases
                  livestockDiseases := livestockDiseases
                  diagnoses := fun _ => none }
  | submit {db : Db} (h : Reachable db) (req : SubmitRequest) (newId : Uuid)
      (randomIndex randomConfidence : ℚ) :
      Reachable (submitDiagnosis db req newId randomIndex randomConfidence).1
  | update {db : Db} (h : Reachable db) (id userId : Uuid) (body : BodyValue) (random : ℚ) :
      Reachable (updateDiagnosisWithSymptoms db id userId body random).1

/-! ## Catalog listing (`diseaseController.js`) -/

/-- Handler `exports.getDiseasesBySpecies` (lines 37-74). -/
def getDiseasesBySpecies (db : Db) (type species : String) : CatalogResponse :=
  match parseType type with
  | none => .badRequest "Invalid type. Must be \"plant\" or \"livestock\""
  | some t =>
    if species = "" then
      .badRequest "Species parameter is required"
    else
      .ok (orderByName (findAllBySpecies db t species))

/-! ## Seed data (`utils/seedData.js`) -/

/-- The first entry of `plantDiseases` in the seed file. -/
def lateBlight : DiseaseEntry :=
  { id := "6f1d2c3a-0000-4000-8000-000000000001"
    name := "Late Blight"
    speciesKey := "tomato"
    description := "Late blight is a potentially serious disease of potato and tomato, caused by the fungus-like organism Phytophthora infestans."
    symptoms :=
      [ "Dark brown spots on leaves"
      , "White fungal growth on undersides of leaves"
      , "Brown lesions on stems"
      , "Fruit rot with greasy appearance" ] }

/-- The second entry of `plantDiseases` in the seed file. -/
def powderyMildew : DiseaseEntry :=
  { id := "6f1d2c3a-0000-4000-8000-000000000002"
    name := "Powdery Mildew"
    speciesKey := "cucumber"
    description := "Powdery mildew is a fungal disease that affects a wide range of plants, particularly cucurbits."
    symptoms :=
      [ "White powdery spots on leaves and stems"
      , "Yellow leaves"
      , "Distorted leaves"
      , "Premature leaf drop" ] }


/-- The `type` parameter that selects a partition. -/
def typeName : DiagnosisType → String
  | .plant => "plant"
  | .livestock => "livestock"

/-! ## Sample stores -/

/-- A second tomato entry, as an administrator could add it after seeding. -/
def earlyBlight : DiseaseEntry :=
  { id := "6f1d2c3a-0000-4000-8000-000000000006"
    name := "Early Blight"
    speciesKey := "tomato"
    description := "Early blight is a common fungal disease of tomato."
    symptoms :=
      [ "Dark brown spots on leaves"
      , "Yellow leaves" ] }

/-- A store holding the first two seeded plant diseases and no diagnosis. -/
def seedStore : Db :=
  { plantDiseases := [lateBlight, powderyMildew]
    livestockDiseases := []
    diagnoses := fun _ => none }

/-- A pending plant/tomato diagnosis of user "user-a". -/
def tomatoRecord : Diagnosis :=
  { userId := "user-a"
    type := .plant
    speciesName := "tomato"
    symptoms := ["Brown lesions on stems"]
    imageUrl := none
    temperature := none
    diagnosisResult := none
    confidence := none
    status := .pending
    notes := none
    location := none }

/-- The seeded store with `tomatoRecord` under the key "diag-1". -/
def tomatoStore : Db := seedStore.put "diag-1" tomatoRecord

/-- A store whose plant table holds "Late Blight" before "Early Blight". -/
def twoTomatoStore : Db :=
  { plantDiseases := [lateBlight, earlyBlight]
    livestockDiseases := []
    diagnoses := fun k => if k = "diag-1" then some tomatoRecord else none }

/-- A valid submission of user "user-a" without an image. -/
def tomatoRequest : SubmitRequest :=
  { userId := "user-a"
    type := some "plant"
    speciesName := some "tomato"
    symptoms := .list ["Brown lesions on stems"]
    temperature := none
    notes := none
    location := none
    file := none }

/-! ## Derived notions used by the statements -/

/-- Lines 193-263 on the row `found`: the row the symptom update stores for an
owned record. -/
def updatedRow (db : Db) (found : Diagnosis) (symptoms : List String) (random : ℚ) : Diagnosis :=
  resolve { found with symptoms := symptoms, status := .pending }
    (possibleDisease db { found with symptoms := symptoms, status := .pending } symptoms) random

/-- Result and confidence are present together, and both are present on a
completed row. -/
def resultWithConfidence (d : Diagnosis) : Prop :=
  (d.diagnosisResult.isSome ↔ d.confidence.isSome) ∧
    (d.status = .completed → d.diagnosisResult.isSome ∧ d.confidence.isSome)

/-- The row `Diagnosis.create` inserts (lines 40-50 of `submitDiagnosis`). -/
def createdRow (req : SubmitRequest) (type : DiagnosisType) (imageUrl : Option String) :
    Diagnosis :=
  { userId := req.userId
    type := type
    speciesName := req.speciesName.getD ""
    symptoms := req.symptoms.toArray
    imageUrl := imageUrl
    temperature := req.temperature
    diagnosisResult := none
    confidence := none
    status := .pending
    notes := req.notes
    location := req.location }

/-- A present result comes with at least one catalog entry for the row's type
and species, and `expert_review` comes with none. -/
def resultHasCandidates (db : Db) (d : Diagnosis) : Prop :=
  (d.diagnosisResult.isSome → findAllBySpecies db d.type d.speciesName ≠ []) ∧
    (d.status = .expert_review → findAllBySpecies db d.type d.speciesName = [])

/-- A valid submission for a species without catalog entry, without an image. -/
def bananaRequest : SubmitRequest :=
  { userId := "user-a"
    type := some "plant"
    speciesName := some "banana"
    symptoms := .list ["Yellow leaves"]
    temperature := none
    notes := some "lower leaves first"
    location := some "Kampala"
    file := none }

/-- A valid tomato submission with an image that S3 stores. -/
def tomatoImageRequest : SubmitRequest :=
  { userId := "user-a"
    type := some "plant"
    speciesName := some "tomato"
    symptoms := .list ["Yellow leaves"]
    temperature := none
    notes := none
    location := none
    file := some (.stored "https://agrihealth.s3.amazonaws.com/diagnoses/1-image.jpg") }

/-- A submission whose type is capitalised, with an image attached. -/
def capitalTypeRequest : SubmitRequest :=
  { tomatoImageRequest with type := some "Plant" }

/-- A submission whose symptom list is the empty array. -/
def emptySymptomsRequest : SubmitRequest :=
  { tomatoRequest with symptoms := .list [] }

/-! ## Catalog handlers (`diseaseController.js`), continued -/

/-- The message of the type check shared by four catalog handlers. -/
def invalidTypeMessage : String := "Invalid type. Must be \"plant\" or \"livestock\""

/-- Handler `exports.getDiseasesByType` (lines 5-34). -/
def getDiseasesByType (db : Db) (type : String) : CatalogResponse :=
  match parseType type with
  | none => .badRequest invalidTypeMessage
  | some t => .ok (orderByName (db.partition t))

/-- Whether the character is a hexadecimal digit, in either case. -/
def isHexDigit (c : Char) : Bool :=
  (48 ≤ c.toNat && c.toNat ≤ 57) || (97 ≤ c.toNat && c.toNat ≤ 102) ||
    (65 ≤ c.toNat && c.toNat ≤ 70)

/-- Reads the last `count` of the sixteen bytes of a `uuid` literal the way
PostgreSQL does: two hexadecimal digits per byte and, after every second byte
except the last, an optional hyphen. Yields the digits in lower case and the
characters left over. -/
def readUuidBytes : Nat → List Char → Option (List Char × List Char)
  | 0, rest => some ([], rest)
  | count + 1, a :: b :: rest =>
    if isHexDigit a && isHexDigit b then
      let index := 15 - count
      let rest :=
        if index % 2 = 1 ∧ index < 15 ∧ rest.head? = some '-' then rest.tail else rest
      (readUuidBytes count rest).map (fun p => (a.toLower :: b.toLower :: p.1, p.2))
    else
      none
  | _ + 1, _ => none

/-- The value of a text used as a `uuid` in a query: its 32 hexadecimal digits,
or `none` when the store rejects the text with 'invalid input syntax for type
uuid'. The store is PostgreSQL, outside the source; it accepts the digits in
either case, with a hyphen after any group of four digits, optionally in
braces. -/
def parseUuid (text : String) : Option (List Char) :=
  if text.data.head? = some '{' then
    (readUuidBytes 16 text.data.tail).bind
      (fun p => if p.2 = ['}'] then some p.1 else none)
  else
    (readUuidBytes 16 text.data).bind (fun p => if p.2 = [] then some p.1 else none)

/-- Handler `exports.getDiseaseById` (lines 77-106); `findByPk(id)` on the
table of `type`. A text that is no `uuid` makes the query throw, which the
`catch` of the handler answers with 500. -/
def getDiseaseById (db : Db) (type : String) (id : String) : CatalogResponse :=
  match parseType type with
  | none => .badRequest invalidTypeMessage
  | some t =>
    match parseUuid id with
    | none =>
      .serverError "Error fetching disease"
        ("invalid input syntax for type uuid: \"" ++ id ++ "\"")
    | some key =>
      match (db.partition t).find? (fun e => parseUuid e.id == some key) with
      | none => .notFound "Disease not found"
      | some disease => .disease disease

/-- The UTF-16 code units of a character. -/
def utf16Units (c : Char) : List Nat :=
  if c.toNat < 65536 then [c.toNat]
  else [55296 + (c.toNat - 65536) / 1024, 56320 + (c.toNat - 65536) % 1024]

/-- The UTF-16 code units of a JavaScript string. -/
def codeUnits (s : String) : List Nat := s.data.flatMap utf16Units

/-- Lexicographic order on lists of numbers. -/
def unitsLe : List Nat → List Nat → Bool
  | [], _ => true
  | _ :: _, [] => false
  | a :: as, b :: bs => a < b || (a == b && unitsLe as bs)

/-- The order of `Array.prototype.sort()` without comparator on strings:
by UTF-16 code units. -/
def jsStringLe (a b : String) : Prop := unitsLe (codeUnits a) (codeUnits b) = true

instance : DecidableRel jsStringLe :=
  fun a b => inferInstanceAs (Decidable (unitsLe (codeUnits a) (codeUnits b) = true))

/-- The elements of `[...new Set(xs)]`: each value once, in order of first
occurrence. -/
def uniqueInOrder : List String → List String
  | [] => []
  | x :: xs => x :: (uniqueInOrder xs).filter (fun y => y != x)

/-- Handler `exports.getSymptomsList` (lines 170-209). `filter(Boolean)` drops
the empty string. -/
def getSymptomsList (db : Db) (type : String) : CatalogResponse :=
  match parseType type with
  | none => .badRequest invalidTypeMessage
  | some t =>
    let allSymptoms := ((db.partition t).flatMap (fun disease => disease.symptoms)).filter
      (fun symptom => symptom != "")
    let uniqueSymptoms := (uniqueInOrder allSymptoms).insertionSort jsStringLe
    .symptoms uniqueSymptoms uniqueSymptoms.length

/-- One element of a `LIKE` pattern. -/
inductive LikeToken where
  | anySequence
  | anyOne
  | literal (c : Char)
  deriving DecidableEq, Repr

/-- Reads a `LIKE` pattern: `%` stands for any sequence, `_` for any single
character, and a backslash makes the next character literal. -/
def parseLike : List Char → List LikeToken
  | [] => []
  | [c] =>
    if c = '%' then [.anySequence] else if c = '_' then [.anyOne] else [.literal c]
  | c :: d :: rest =>
    if c = '\\' then .literal d :: parseLike rest
    else if c = '%' then .anySequence :: parseLike (d :: rest)
    else if c = '_' then .anyOne :: parseLike (d :: rest)
    else .literal c :: parseLike (d :: rest)

/-- Whether the whole text matches the pattern. -/
def likeMatch : List LikeToken → List Char → Bool
  | [], text => text.isEmpty
  | .anySequence :: tokens, text => text.tails.any (fun rest => likeMatch tokens rest)
  | .anyOne :: _, [] => false
  | .anyOne :: tokens, _ :: rest => likeMatch tokens rest
  | .literal _ :: _, [] => false
  | .literal c :: tokens, t :: rest => c == t && likeMatch tokens rest

/-- Operator `ILIKE`: `LIKE` after folding the case of both sides. -/
def iLike (text pattern : String) : Bool :=
  likeMatch (parseLike (pattern.data.map Char.toLower)) (text.data.map Char.toLower)

/-- The search term `%${query}%`. -/
def searchTerm (query : String) : String := "%" ++ query ++ "%"

/-- The `where` clause of `searchDiseases`: name or description `ILIKE` the
search term. -/
def searchMatches (query : String) (e : DiseaseEntry) : Bool :=
  iLike e.name (searchTerm query) || iLike e.description (searchTerm query)

/-- Handler `exports.searchDiseases` (lines 109-167). `query.length` counts
UTF-16 code units. -/
def searchDiseases (db : Db) (type query : String) : CatalogResponse :=
  if (codeUnits query).length < 2 then
    .badRequest "Search query must be at least 2 characters"
  else if type ≠ "plant" ∧ type ≠ "livestock" ∧ type ≠ "all" then
    .badRequest "Invalid type. Must be \"plant\", \"livestock\", or \"all\""
  else
    let plantResults :=
      if type = "plant" ∨ type = "all" then
        orderByName (db.plantDiseases.filter (searchMatches query))
      else []
    let livestockResults :=
      if type = "livestock" ∨ type = "all" then
        orderByName (db.livestockDiseases.filter (searchMatches query))
      else []
    .search plantResults livestockResults (plantResults.length + livestockResults.length)

/-! ## Global error handler (`src/index.js`, lines 28-35) -/

/-- The body of the 500 answer of the error-handling middleware; `production`
is `process.env.NODE_ENV === 'production'`. -/
def globalErrorHandler (production : Bool) (errMessage : String) : Response :=
  .serverError "Internal server error"
    (if production then "Something went wrong" else errMessage)

/-! ## Plant.id response processing (`PlantDiseaseDetectionService.js`) -/

/-- An element of `response.health_assessment.diseases`. `treatmentChemical` is
`disease.treatment.chemical` when both exist. -/
structure PlantIdDisease where
  name : String
  probability : ℚ
  description : Option String
  treatmentChemical : Option (List String)
  prevention : Option (List String)
  similarImages : Option (List String)
  deriving DecidableEq, Repr

/-- The relevant part of a Plant.id response: `health_assessment` may be
missing, and so may its `diseases`. -/
structure PlantIdResponse where
  healthAssessment : Option (Option (List PlantIdDisease))
  deriving DecidableEq, Repr

/-- An element of the returned `diseases`. -/
structure DetectedDisease where
  name : String
  probability : ℚ
  description : Option String
  treatment : Option String
  prevention : Option String
  similarImages : List String
  deriving DecidableEq, Repr

/-- The object `processDiseaseResponse` returns. -/
structure DetectionResult where
  isHealthy : Bool
  diseases : List DetectedDisease
  suggestions : String
  deriving DecidableEq, Repr

/-- The callback of `.map(...)` in `processDiseaseResponse` (lines 71-78). -/
def formatDisease (disease : PlantIdDisease) : DetectedDisease :=
  { name := disease.name
    probability := disease.probability
    description := disease.description
    treatment := disease.treatmentChemical.map (fun parts => ", ".intercalate parts)
    prevention := disease.prevention.map (fun parts => ", ".intercalate parts)
    similarImages := disease.similarImages.getD [] }

/-- The order `.sort((a, b) => b.probability - a.probability)` puts `a` before
`b` in. -/
def probabilityGe (a b : PlantIdDisease) : Prop := b.probability ≤ a.probability

instance : DecidableRel probabilityGe :=
  fun a b => inferInstanceAs (Decidable (b.probability ≤ a.probability))

/-- The message for a healthy plant. -/
def healthyMessage : String :=
  "The plant appears to be healthy. Continue monitoring for any changes."

/-- Method `processDiseaseResponse` (lines 58-91). The sort is stable. -/
def processDiseaseResponse (response : PlantIdResponse) : DetectionResult :=
  match response.healthAssessment with
  | none => { isHealthy := true, diseases := [], suggestions := healthyMessage }
  | some none => { isHealthy := true, diseases := [], suggestions := healthyMessage }
  | some (some input) =>
    if input.length = 0 then
      { isHealthy := true, diseases := [], suggestions := healthyMessage }
    else
      let diseases := (input.insertionSort probabilityGe).map formatDisease
      match diseases with
      | [] => { isHealthy := true, diseases := diseases, suggestions := healthyMessage }
      | first :: _ =>
        let isHealthy := decide (first.probability < 0.15)
        { isHealthy := isHealthy
          diseases := diseases
          suggestions :=
            if isHealthy then healthyMessage
            else "Possible " ++ first.name ++ " detected. Follow treatment recommendations." }

/-! ## Further sample values -/

/-- A tomato submission whose image upload S3 refuses. -/
def failedUploadRequest : SubmitRequest :=
  { tomatoRequest with file := some (.failed "Access Denied") }

/-- Late blight of potato: the same disease name under another species key. -/
def potatoLateBlight : DiseaseEntry :=
  { id := "6f1d2c3a-0000-4000-8000-000000000007"
    name := "Late Blight"
    speciesKey := "potato"
    description := "Late blight of potato, caused by Phytophthora infestans."
    symptoms :=
      [ "Dark lesions on tubers"
      , "Dark brown spots on leaves" ] }

/-- A store whose plant table holds the potato entry before the tomato entry
of the same name, and the pending tomato diagnosis of user "user-a". -/
def sameNameStore : Db :=
  { plantDiseases := [potatoLateBlight, lateBlight]
    livestockDiseases := []
    diagnoses := fun k => if k = "diag-1" then some tomatoRecord else none }

/-- A Plant.id response with two findings, the less probable one first. -/
def sampleDetection : PlantIdResponse :=
  { healthAssessment :=
      some (some
        [ { name := "Powdery Mildew"
            probability := 1 / 10
            description := none
            treatmentChemical := none
            prevention := none
            similarImages := none }
        , { name := "Late Blight"
            probability := 87 / 100
            description := some "Late blight of tomato"
            treatmentChemical := some ["copper", "mancozeb"]
            prevention := some ["rotate crops"]
            similarImages := none } ]) }

/-- A third tomato entry, stored after the other two. -/
def septoriaLeafSpot : DiseaseEntry :=
  { id := "6f1d2c3a-0000-4000-8000-000000000008"
    name := "Septoria Leaf Spot"
    speciesKey := "tomato"
    description := "Septoria leaf spot is a fungal disease of tomato foliage."
    symptoms :=
      [ "Dark brown spots on leaves"
      , "Brown lesions on stems"
      , "Yellow leaves" ] }

/-- A store whose plant table holds three tomato entries in ascending name
order, one cucumber entry between them, and the pending tomato diagnosis of
user "user-a". -/
def threeTomatoStore : Db :=
  { plantDiseases := [earlyBlight, lateBlight, powderyMildew, septoriaLeafSpot]
    livestockDiseases := []
    diagnoses := fun k => if k = "diag-1" then some tomatoRecord else none }

/-- A tomato entry whose name is the empty string (the column only forbids
null). -/
def unnamedEntry : DiseaseEntry :=
  { id := "6f1d2c3a-0000-4000-8000-00000000000a"
    name := ""
    speciesKey := "tomato"
    description := "Entry awaiting a name."
    symptoms := ["Brown lesions on stems"] }

/-- A store whose only plant entry is `unnamedEntry`, with the pending tomato
diagnosis of user "user-a". -/
def unnamedStore : Db :=
  { plantDiseases := [unnamedEntry]
    livestockDiseases := []
    diagnoses := fun k => if k = "diag-1" then some tomatoRecord else none }

/-- A present result is the name of an entry of the table of the row's type
whose species key is the row's `speciesName`. -/
def resultNamesEntry (db : Db) (d : Diagnosis) : Prop :=
  ∀ n : String, d.diagnosisResult = some n →
    ∃ e ∈ db.partition d.type, e.speciesKey = d.speciesName ∧ e.name = n

/-! # Theorems -/

/-! ## The scorer selects the first maximum -/

theorem reduceBest_nil (symptoms : List String) : reduceBest symptoms [] = none := rfl

theorem reduceBest_concat (symptoms : List String) (ds : List DiseaseEntry) (c : DiseaseEntry) :
    reduceBest symptoms (ds ++ [c]) = reducer symptoms (reduceBest symptoms ds) c := by
  simp [reduceBest, List.foldl_append]

/-- The accumulator after a non-empty list: the entry at some position `i`,
with its own match count, no entry of the list scoring higher and every entry
before `i` scoring strictly lower. -/
theorem reduceBest_first_max (symptoms : List String) (ds : List DiseaseEntry) (h : ds ≠ []) :
    ∃ (i : Nat) (d : DiseaseEntry), ds[i]? = some d ∧
      reduceBest symptoms ds = some { disease := d, matchCount := matchCount symptoms d } ∧
      (∀ c ∈ ds, matchCount symptoms c ≤ matchCount symptoms d) ∧
      ∀ (j : Nat) (c : DiseaseEntry), j < i → ds[j]? = some c → matchCount symptoms c < matchCount symptoms d := by
  induction ds using List.reverseRecOn with
  | nil => exact absurd rfl h
  | append_singleton ds c ih =>
    rw [reduceBest_concat]
    rcases ds.eq_nil_or_concat with hnil | ⟨ds0, c0, hds⟩
    · subst hnil
      refine ⟨0, c, by simp, by simp [reduceBest_nil, reducer], by simp, ?_⟩
      intro j c1 hj
      omega
    · have hne : ds ≠ [] := by rw [hds]; simp
      obtain ⟨i, d, hi, hbest, hmax, hfirst⟩ := ih hne
      have hilt : i < ds.length := by
        by_contra hcon
        rw [List.getElem?_eq_none (by omega)] at hi
        exact Option.noConfusion hi
      rw [hbest]
      by_cases hgt : matchCount symptoms c > matchCount symptoms d
      · refine ⟨ds.length, c, by simp, by simp [reducer, hgt], ?_, ?_⟩
        · intro c1 hc1
          rcases List.mem_append.mp hc1 with hm | hm
          · exact le_of_lt (lt_of_le_of_lt (hmax c1 hm) hgt)
          · simp at hm
            subst hm
            exact le_refl _
        · intro j c1 hj hjc
          rw [List.getElem?_append_left hj] at hjc
          exact lt_of_le_of_lt (hmax c1 (List.getElem?_mem hjc)) hgt
      · refine ⟨i, d, ?_, by simp [reducer, hgt], ?_, ?_⟩
        · rw [List.getElem?_append_left hilt]
          exact hi
        · intro c1 hc1
          rcases List.mem_append.mp hc1 with hm | hm
          · exact hmax c1 hm
          · simp at hm
            subst hm
            exact not_lt.mp hgt
        · intro j c1 hj hjc
          rw [List.getElem?_append_left (by omega)] at hjc
          exact hfirst j c1 hj hjc


theorem matchingSymptoms_toFinset (symptoms : List String) (c : DiseaseEntry) :
    (matchingSymptoms symptoms c).toFinset = symptoms.toFinset ∩ c.symptoms.toFinset := by
  ext s
  simp [matchingSymptoms]

theorem matchCount_eq_sum_count (symptoms : List String) (c : DiseaseEntry) :
    matchCount symptoms c =
      ∑ s in symptoms.toFinset ∩ c.symptoms.toFinset, symptoms.count s := by
  unfold matchCount
  rw [← List.sum_toFinset_count_eq_length, matchingSymptoms_toFinset]
  refine Finset.sum_congr rfl ?_
  intro s hs
  have hmem : s ∈ c.symptoms := by
    have := (Finset.mem_inter.mp hs).2
    simpa using this
  unfold matchingSymptoms
  exact List.count_filter (by simpa using hmem)

theorem matchCount_append_singleton (symptoms : List String) (c : DiseaseEntry) (s : String) :
    matchCount (symptoms ++ [s]) c =
      matchCount symptoms c + if s ∈ c.symptoms then 1 else 0 := by
  unfold matchCount matchingSymptoms
  by_cases hs : s ∈ c.symptoms
  · simp [List.filter_append, List.filter_cons, hs]
  · simp [List.filter_append, List.filter_cons, hs]

theorem selectDisease_mem (symptoms : List String) (ds : List DiseaseEntry) (d : DiseaseEntry)
    (h : selectDisease symptoms ds = some d) : d ∈ ds := by
  rcases ds.eq_nil_or_concat with hnil | ⟨ds0, c0, hds⟩
  · subst hnil
    simp [selectDisease, reduceBest_nil] at h
  · have hne : ds ≠ [] := by rw [hds]; simp
    obtain ⟨i, d0, hi, hbest, -, -⟩ := reduceBest_first_max symptoms ds hne
    simp [selectDisease, hbest] at h
    subst h
    exact List.getElem?_mem hi

/-- C1: in `updateDiagnosisWithSymptoms`, when the candidate list (the entries of
the record's type whose species key equals the record's `speciesName`) is not
empty, the disease the reduce selects sits at some position of that list, no
candidate has a greater `matchCount`, and every candidate before that position
has a strictly smaller one: it is the earliest candidate attaining the maximum. -/
theorem possibleDisease_is_first_maximum (db : Db) (diagnosis : Diagnosis)
    (symptoms : List String)
    (h : findAllBySpecies db diagnosis.type diagnosis.speciesName ≠ []) :
    ∃ (i : Nat) (d : DiseaseEntry),
      (findAllBySpecies db diagnosis.type diagnosis.speciesName)[i]? = some d ∧
      possibleDisease db diagnosis symptoms = some d ∧
      (∀ c ∈ findAllBySpecies db diagnosis.type diagnosis.speciesName,
        matchCount symptoms c ≤ matchCount symptoms d) ∧
      ∀ (j : Nat) (c : DiseaseEntry), j < i →
        (findAllBySpecies db diagnosis.type diagnosis.speciesName)[j]? = some c →
        matchCount symptoms c < matchCount symptoms d := by
  obtain ⟨i, d, hi, hbest, hmax, hfirst⟩ := reduceBest_first_max symptoms _ h
  refine ⟨i, d, hi, ?_, hmax, hfirst⟩
  have hlen : (findAllBySpecies db diagnosis.type diagnosis.speciesName).length > 0 :=
    List.length_pos.mpr h
  simp [possibleDisease, hlen, selectDisease, hbest]

/-- C3 (as amended): `matchCount` counts the entries of the observed list, with
repetition, that are identical strings to a symptom of the candidate: it is the
sum, over the strings common to both lists, of the number of times the string
occurs in the observed list. For an observed list without repeated entries it
is the cardinality of the intersection, and appending an observed symptom the
candidate has, repeated or not, raises it by one. -/
theorem matchCount_counts_with_repetition (symptoms : List String) (c : DiseaseEntry) :
    matchCount symptoms c =
        ∑ s in symptoms.toFinset ∩ c.symptoms.toFinset, symptoms.count s ∧
      (symptoms.Nodup →
        matchCount symptoms c = (symptoms.toFinset ∩ c.symptoms.toFinset).card) ∧
      ∀ s : String, s ∈ c.symptoms →
        matchCount (symptoms ++ [s]) c = matchCount symptoms c + 1 := by
  refine ⟨matchCount_eq_sum_count symptoms c, ?_, ?_⟩
  · intro hnd
    rw [← matchingSymptoms_toFinset]
    unfold matchCount
    exact (List.toFinset_card_of_nodup (hnd.filter _)).symm
  · intro s hs
    rw [matchCount_append_singleton, if_pos hs]

/-- C8: the currently selected candidate is one of the candidates and, if `s`
is one of its symptoms, appending `s` to the observed list does not decrease that candidate's `matchCount`, leaves
the `matchCount` of every candidate without `s` unchanged, and so does not
decrease the lead of the selected candidate over any such candidate. -/
theorem appending_winner_symptom_is_monotone (symptoms : List String)
    (diseases : List DiseaseEntry) (best : DiseaseEntry) (s : String)
    (hbest : selectDisease symptoms diseases = some best) (hs : s ∈ best.symptoms) :
    best ∈ diseases ∧
      matchCount symptoms best ≤ matchCount (symptoms ++ [s]) best ∧
      (∀ c ∈ diseases, s ∉ c.symptoms →
        matchCount (symptoms ++ [s]) c = matchCount symptoms c) ∧
      ∀ c ∈ diseases, s ∉ c.symptoms →
        (matchCount symptoms best : ℤ) - (matchCount symptoms c : ℤ) ≤
          (matchCount (symptoms ++ [s]) best : ℤ) - (matchCount (symptoms ++ [s]) c : ℤ) := by
  have hb : matchCount (symptoms ++ [s]) best = matchCount symptoms best + 1 := by
    rw [matchCount_append_singleton, if_pos hs]
  have hc : ∀ c : DiseaseEntry, s ∉ c.symptoms →
      matchCount (symptoms ++ [s]) c = matchCount symptoms c := by
    intro c hn
    rw [matchCount_append_singleton, if_neg hn, Nat.add_zero]
  refine ⟨selectDisease_mem symptoms diseases best hbest, by omega, fun c _ hn => hc c hn, ?_⟩
  intro c _ hn
  rw [hb, hc c hn]
  push_cast
  omega

/-! ## The symptom update -/

theorem findAllBySpecies_put (db : Db) (id : Uuid) (d : Diagnosis) (type : DiagnosisType)
    (species : String) :
    findAllBySpecies (db.put id d) type species = findAllBySpecies db type species := by
  cases type <;> rfl

theorem possibleDisease_put (db : Db) (id : Uuid) (d diagnosis : Diagnosis)
    (symptoms : List String) :
    possibleDisease (db.put id d) diagnosis symptoms = possibleDisease db diagnosis symptoms := by
  unfold possibleDisease
  rw [findAllBySpecies_put]

theorem diagnoses_logUpload (db : Db) (file : Option UploadOutcome) :
    (db.logUpload file).diagnoses = db.diagnoses := by
  cases file <;> rfl

theorem partition_logUpload (db : Db) (file : Option UploadOutcome) (type : DiagnosisType) :
    (db.logUpload file).partition type = db.partition type := by
  cases file <;> cases type <;> rfl

theorem diagnoses_put_same (db : Db) (id : Uuid) (d : Diagnosis) :
    (db.put id d).diagnoses id = some d := by
  simp [Db.put]

/-- With a non-empty symptom array and an owned record the handler answers 200
with the row it stored. -/
theorem update_owned (db : Db) (id userId : Uuid) (symptoms : List String) (random : ℚ)
    (found : Diagnosis) (hs : symptoms ≠ [])
    (hfound : findOneDiagnosis db id userId = some found) :
    updateDiagnosisWithSymptoms db id userId (.list symptoms) random =
      (((db.put id { found with symptoms := symptoms, status := .pending }).put id
          (updatedRow db found symptoms random)),
        .ok id (updatedRow db found symptoms random)
          (diseaseDetails
            ((db.put id { found with symptoms := symptoms, status := .pending }).put id
              (updatedRow db found symptoms random))
            (updatedRow db found symptoms random))) := by
  have hlen : symptoms.length ≠ 0 := fun h => hs (List.length_eq_zero.mp h)
  simp [updateDiagnosisWithSymptoms, BodyValue.falsy, BodyValue.isArray, BodyValue.toArray,
    hlen, hfound, findByPk, diagnoses_put_same, possibleDisease_put, updatedRow]

theorem findOneDiagnosis_some (db : Db) (id userId : Uuid) (found : Diagnosis)
    (h : findOneDiagnosis db id userId = some found) :
    db.diagnoses id = some found ∧ found.userId = userId := by
  unfold findOneDiagnosis at h
  cases hrow : db.diagnoses id with
  | none => simp [hrow] at h
  | some d =>
    simp only [hrow] at h
    by_cases hu : d.userId = userId
    · simp [hu] at h
      subst h
      exact ⟨rfl, hu⟩
    · simp [hu] at h

theorem possibleDisease_eq_none_iff (db : Db) (diagnosis : Diagnosis) (symptoms : List String) :
    possibleDisease db diagnosis symptoms = none ↔
      findAllBySpecies db diagnosis.type diagnosis.speciesName = [] := by
  constructor
  · intro h
    by_contra hne
    obtain ⟨i, d, -, hbest, -, -⟩ := reduceBest_first_max symptoms _ hne
    have hlen : (findAllBySpecies db diagnosis.type diagnosis.speciesName).length > 0 :=
      List.length_pos.mpr hne
    simp [possibleDisease, hlen, selectDisease, hbest] at h
  · intro h
    simp [possibleDisease, h]

theorem toFixed2_bounds (x : ℚ) (lo hi : ℤ) (hlo : (lo : ℚ) / 100 ≤ x) (hhi : x ≤ (hi : ℚ) / 100) :
    (lo : ℚ) / 100 ≤ toFixed2 x ∧ toFixed2 x ≤ (hi : ℚ) / 100 := by
  unfold toFixed2
  have h1 : lo ≤ ⌊x * 100 + 1 / 2⌋ := by
    apply Int.le_floor.mpr
    linarith
  have h2 : ⌊x * 100 + 1 / 2⌋ ≤ hi := by
    have h3 : ⌊x * 100 + 1 / 2⌋ < hi + 1 := by
      apply Int.floor_lt.mpr
      push_cast
      linarith
    omega
  have h1q : (lo : ℚ) ≤ (⌊x * 100 + 1 / 2⌋ : ℤ) := by exact_mod_cast h1
  have h2q : ((⌊x * 100 + 1 / 2⌋ : ℤ) : ℚ) ≤ (hi : ℚ) := by exact_mod_cast h2
  constructor
  · exact div_le_div_of_nonneg_right h1q (by norm_num)
  · exact div_le_div_of_nonneg_right h2q (by norm_num)

theorem symptomConfidence_bounds (random : ℚ) (h0 : 0 ≤ random) (h1 : random < 1) :
    (0.6 : ℚ) ≤ symptomConfidence random ∧ symptomConfidence random ≤ 1 := by
  have h := toFixed2_bounds (0.6 + random * 0.4) 60 100 (by norm_num; nlinarith)
    (by norm_num; nlinarith)
  unfold symptomConfidence
  constructor
  · have := h.1
    norm_num at this ⊢
    linarith
  · have := h.2
    norm_num at this ⊢
    linarith

theorem updatedRow_status (db : Db) (found : Diagnosis) (symptoms : List String) (random : ℚ) :
    ((updatedRow db found symptoms random).status = .expert_review ↔
        findAllBySpecies db found.type found.speciesName = []) ∧
      (findAllBySpecies db found.type found.speciesName ≠ [] →
        (updatedRow db found symptoms random).status = .completed) := by
  have hiff := possibleDisease_eq_none_iff db
    { found with symptoms := symptoms, status := .pending } symptoms
  simp only at hiff
  unfold updatedRow
  cases hp : possibleDisease db { found with symptoms := symptoms, status := .pending } symptoms with
  | none =>
    have hnil := hiff.mp hp
    simp [resolve, hnil]
  | some d =>
    have hne : findAllBySpecies db found.type found.speciesName ≠ [] := by
      intro hnil
      rw [hiff.mpr hnil] at hp
      exact Option.noConfusion hp
    simp [resolve, hne]

/-- C5: for an owned record and a non-empty symptom list the update answers 200,
and the row it stores and returns has status `expert_review` if and only if no
entry of the table selected by the record's type has the record's `speciesName`
as species key; if there is such an entry the status is `completed`, whatever
the symptoms are. -/
theorem update_expert_review_iff_no_species_entry (db : Db) (id userId : Uuid)
    (symptoms : List String) (random : ℚ) (found : Diagnosis) (hs : symptoms ≠ [])
    (hfound : findOneDiagnosis db id userId = some found) :
    ∃ (updated : Diagnosis) (details : Option DiseaseEntry),
      (updateDiagnosisWithSymptoms db id userId (.list symptoms) random).2 =
          .ok id updated details ∧
        (updateDiagnosisWithSymptoms db id userId (.list symptoms) random).1.diagnoses id =
          some updated ∧
        (updated.status = .expert_review ↔
          ∀ e ∈ db.partition found.type, e.speciesKey ≠ found.speciesName) ∧
        ((∃ e ∈ db.partition found.type, e.speciesKey = found.speciesName) →
          updated.status = .completed) := by
  rw [update_owned db id userId symptoms random found hs hfound]
  refine ⟨updatedRow db found symptoms random, _, rfl, diagnoses_put_same _ _ _, ?_, ?_⟩
  · rw [(updatedRow_status db found symptoms random).1]
    simp [findAllBySpecies, List.filter_eq_nil_iff]
  · rintro ⟨e, he, hk⟩
    apply (updatedRow_status db found symptoms random).2
    intro hnil
    have := List.filter_eq_nil_iff.mp hnil e he
    simp [hk] at this

/-- C6: if the only plant entry with species key "tomato" is named "Late Blight",
the update of an owned plant/tomato record with the two symptoms
"Dark brown spots on leaves" and "White fungal growth on undersides of leaves"
answers 200 with `diagnosisResult = "Late Blight"`, `status = completed` and a
confidence between 0.6 and 1.0, for every random draw in [0, 1). -/
theorem update_tomato_late_blight (db : Db) (id userId : Uuid) (found : Diagnosis)
    (entry : DiseaseEntry) (random : ℚ)
    (hfound : findOneDiagnosis db id userId = some found)
    (htype : found.type = .plant) (hspecies : found.speciesName = "tomato")
    (honly : findAllBySpecies db .plant "tomato" = [entry])
    (hname : entry.name = "Late Blight")
    (h0 : 0 ≤ random) (h1 : random < 1) :
    ∃ (updated : Diagnosis) (details : Option DiseaseEntry) (confidence : ℚ),
      (updateDiagnosisWithSymptoms db id userId
          (.list ["Dark brown spots on leaves", "White fungal growth on undersides of leaves"])
          random).2 = .ok id updated details ∧
        updated.diagnosisResult = some "Late Blight" ∧
        updated.status = .completed ∧
        updated.confidence = some confidence ∧
        (0.6 : ℚ) ≤ confidence ∧ confidence ≤ 1 := by
  rw [update_owned db id userId _ random found (by simp) hfound]
  refine ⟨_, _, symptomConfidence random, rfl, ?_, ?_, ?_,
    (symptomConfidence_bounds random h0 h1).1, (symptomConfidence_bounds random h0 h1).2⟩
  all_goals
    simp [updatedRow, possibleDisease, htype, hspecies, honly, selectDisease, reduceBest,
      reducer, resolve, hname]

theorem findOneDiagnosis_put (db : Db) (id userId : Uuid) (d : Diagnosis)
    (h : d.userId = userId) : findOneDiagnosis (db.put id d) id userId = some d := by
  simp [findOneDiagnosis, diagnoses_put_same, h]

theorem updatedRow_userId (db : Db) (found : Diagnosis) (symptoms : List String) (random : ℚ) :
    (updatedRow db found symptoms random).userId = found.userId := by
  unfold updatedRow resolve
  split <;> rfl

theorem updatedRow_put (db : Db) (id : Uuid) (d found : Diagnosis) (symptoms : List String)
    (random : ℚ) :
    updatedRow (db.put id d) found symptoms random = updatedRow db found symptoms random := by
  unfold updatedRow
  rw [possibleDisease_put]

/-- Resolving the stored row again with the same symptoms changes at most the
confidence. -/
theorem updatedRow_again (db : Db) (found : Diagnosis) (symptoms : List String) (r1 r2 : ℚ) :
    updatedRow db (updatedRow db found symptoms r1) symptoms r2 =
      { updatedRow db found symptoms r1 with
        confidence := (updatedRow db (updatedRow db found symptoms r1) symptoms r2).confidence } := by
  unfold updatedRow possibleDisease
  by_cases hlen : (findAllBySpecies db found.type found.speciesName).length > 0
  · cases hsel : selectDisease symptoms (findAllBySpecies db found.type found.speciesName) with
    | none => simp [resolve, hlen, hsel]
    | some d => simp [resolve, hlen, hsel]
  · simp [resolve, hlen]

/-- C7: over a fixed catalog, for an owned record and a non-empty symptom list,
two successive updates with the same list both answer 200, and the row after
the second call equals the row after the first in every field except possibly
`confidence`; in particular `diagnosisResult` and `status` are the same, for
every pair of random draws and whatever the record held before. -/
theorem update_twice_same_result (db : Db) (id userId : Uuid) (symptoms : List String)
    (r1 r2 : ℚ) (found : Diagnosis) (hs : symptoms ≠ [])
    (hfound : findOneDiagnosis db id userId = some found) :
    ∃ (first second : Diagnosis) (details1 details2 : Option DiseaseEntry),
      (updateDiagnosisWithSymptoms db id userId (.list symptoms) r1).2 =
          .ok id first details1 ∧
        (updateDiagnosisWithSymptoms
            (updateDiagnosisWithSymptoms db id userId (.list symptoms) r1).1
            id userId (.list symptoms) r2).2 = .ok id second details2 ∧
        second.diagnosisResult = first.diagnosisResult ∧
        second.status = first.status ∧
        second = { first with confidence := second.confidence } := by
  have hown := (findOneDiagnosis_some db id userId found hfound).2
  have hfound2 : findOneDiagnosis
      (updateDiagnosisWithSymptoms db id userId (.list symptoms) r1).1 id userId =
      some (updatedRow db found symptoms r1) := by
    rw [update_owned db id userId symptoms r1 found hs hfound]
    exact findOneDiagnosis_put _ _ _ _ (by rw [updatedRow_userId]; exact hown)
  rw [update_owned _ id userId symptoms r2 _ hs hfound2]
  rw [update_owned db id userId symptoms r1 found hs hfound]
  simp only [updatedRow_put]
  have hagain := updatedRow_again db found symptoms r1 r2
  refine ⟨_, _, _, _, rfl, rfl, ?_, ?_, hagain⟩
  · rw [hagain]
  · rw [hagain]

/-- C9: for a record owned by user A and any other user B, `getDiagnosisById`
called as B answers 404, and `updateDiagnosisWithSymptoms` called as B with a
non-empty symptom list answers 404 and returns the store as it was, so no field
of the record changes. -/
theorem other_user_gets_not_found (db : Db) (id userA userB : Uuid) (record : Diagnosis)
    (symptoms : List String) (random : ℚ)
    (hrecord : db.diagnoses id = some record) (howner : record.userId = userA)
    (hother : userB ≠ userA) (hs : symptoms ≠ []) :
    getDiagnosisById db id userB = .notFound "Diagnosis not found" ∧
      updateDiagnosisWithSymptoms db id userB (.list symptoms) random =
        (db, .notFound "Diagnosis not found") ∧
      (updateDiagnosisWithSymptoms db id userB (.list symptoms) random).1.diagnoses id =
        some record := by
  have hnone : findOneDiagnosis db id userB = none := by
    simp [findOneDiagnosis, hrecord, howner, Ne.symm hother]
  have hlen : symptoms.length ≠ 0 := fun h => hs (List.length_eq_zero.mp h)
  simp [getDiagnosisById, updateDiagnosisWithSymptoms, hnone, BodyValue.falsy,
    BodyValue.isArray, BodyValue.toArray, hlen, hrecord]

/-! ## Result and confidence go together -/

theorem put_preserves (P : Diagnosis → Prop) (db : Db) (id : Uuid) (d0 : Diagnosis)
    (hdb : ∀ k d, db.diagnoses k = some d → P d) (h0 : P d0) :
    ∀ k d, (db.put id d0).diagnoses k = some d → P d := by
  intro k d hk
  unfold Db.put at hk
  simp only at hk
  by_cases hkid : k = id
  · simp [hkid] at hk
    subst hk
    exact h0
  · simp [hkid] at hk
    exact hdb k d hk

theorem resolve_resultWithConfidence (d : Diagnosis) (found : Option DiseaseEntry) (random : ℚ)
    (symptoms : List String) (h : resultWithConfidence d) :
    resultWithConfidence (resolve { d with symptoms := symptoms, status := .pending } found random) := by
  unfold resultWithConfidence at h ⊢
  cases found with
  | none => simp [resolve, h.1]
  | some e => simp [resolve]

theorem update_preserves (db : Db) (id userId : Uuid) (body : BodyValue) (random : ℚ)
    (hdb : ∀ k d, db.diagnoses k = some d → resultWithConfidence d) :
    ∀ k d, (updateDiagnosisWithSymptoms db id userId body random).1.diagnoses k = some d →
      resultWithConfidence d := by
  unfold updateDiagnosisWithSymptoms
  split
  · exact hdb
  · cases hfound : findOneDiagnosis db id userId with
    | none => exact hdb
    | some found =>
      have hrow := (findOneDiagnosis_some db id userId found hfound).1
      have hinv := hdb id found hrow
      have hfinal : ∀ k d,
          ((db.put id { found with symptoms := body.toArray, status := .pending }).put id
            (resolve { found with symptoms := body.toArray, status := .pending }
              (possibleDisease (db.put id { found with symptoms := body.toArray, status := .pending })
                { found with symptoms := body.toArray, status := .pending } body.toArray)
              random)).diagnoses k = some d → resultWithConfidence d := by
        apply put_preserves
        · apply put_preserves _ _ _ _ hdb
          exact ⟨hinv.1, by simp⟩
        · exact resolve_resultWithConfidence found _ random body.toArray hinv
      simp only
      split <;> exact hfinal

theorem processImage_preserves (db : Db) (newId : Uuid) (diagnosis : Diagnosis) (r1 r2 : ℚ)
    (hdb : ∀ k d, db.diagnoses k = some d → resultWithConfidence d) :
    ∀ k d, (processImage db newId diagnosis r1 r2).diagnoses k = some d →
      resultWithConfidence d := by
  unfold processImage
  split
  · simp only
    split
    · apply put_preserves _ _ _ _ hdb
      simp [resultWithConfidence]
    · exact hdb
  · exact hdb

theorem createDiagnosis_preserves (db : Db) (req : SubmitRequest) (type : DiagnosisType)
    (imageUrl : Option String) (newId : Uuid) (r1 r2 : ℚ)
    (hdb : ∀ k d, db.diagnoses k = some d → resultWithConfidence d) :
    ∀ k d, (createDiagnosis db req type imageUrl newId r1 r2).1.diagnoses k = some d →
      resultWithConfidence d := by
  unfold createDiagnosis
  split
  · exact hdb
  · apply processImage_preserves
    apply put_preserves _ _ _ _ hdb
    simp [resultWithConfidence]

theorem submit_preserves (db : Db) (req : SubmitRequest) (newId : Uuid) (r1 r2 : ℚ)
    (hdb : ∀ k d, db.diagnoses k = some d → resultWithConfidence d) :
    ∀ k d, (submitDiagnosis db req newId r1 r2).1.diagnoses k = some d →
      resultWithConfidence d := by
  have hlog : ∀ k d, (db.logUpload req.file).diagnoses k = some d → resultWithConfidence d := by
    rw [diagnoses_logUpload]
    exact hdb
  unfold submitDiagnosis
  split
  · exact hdb
  · split
    · exact hdb
    · split
      · exact hlog
      · exact createDiagnosis_preserves _ req _ _ newId r1 r2 hlog

theorem reachable_resultWithConfidence (db : Db) (h : Reachable db) :
    ∀ k d, db.diagnoses k = some d → resultWithConfidence d := by
  induction h with
  | init p l =>
    intro k d hk
    simp at hk
  | submit _ req newId r1 r2 ih => exact submit_preserves _ req newId r1 r2 ih
  | update _ id userId body random ih => exact update_preserves _ id userId body random ih

/-- C10: every diagnosis row of a store reachable from an empty diagnosis table
by calls of `submitDiagnosis` and `updateDiagnosisWithSymptoms` has
`diagnosisResult` present if and only if `confidence` is present, and has both
present when its status is `completed`. -/
theorem reachable_result_iff_confidence (db : Db) (h : Reachable db) (id : Uuid)
    (d : Diagnosis) (hrow : db.diagnoses id = some d) :
    (d.diagnosisResult.isSome ↔ d.confidence.isSome) ∧
      (d.status = .completed → d.diagnosisResult.isSome ∧ d.confidence.isSome) := by
  exact reachable_resultWithConfidence db h id d hrow

/-! ## Concrete runs -/

theorem possibleDisease_is_first_maximum_witness :
    findAllBySpecies threeTomatoStore tomatoRecord.type tomatoRecord.speciesName =
        [earlyBlight, lateBlight, septoriaLeafSpot] ∧
      matchCount ["Dark brown spots on leaves", "Brown lesions on stems"] earlyBlight = 1 ∧
      matchCount ["Dark brown spots on leaves", "Brown lesions on stems"] lateBlight = 2 ∧
      matchCount ["Dark brown spots on leaves", "Brown lesions on stems"] septoriaLeafSpot = 2 ∧
      possibleDisease threeTomatoStore tomatoRecord
          ["Dark brown spots on leaves", "Brown lesions on stems"] = some lateBlight ∧
      ∃ (i : Nat) (d : DiseaseEntry), i = 1 ∧ d = lateBlight ∧
        (findAllBySpecies threeTomatoStore tomatoRecord.type tomatoRecord.speciesName)[i]? =
          some d ∧
        possibleDisease threeTomatoStore tomatoRecord
          ["Dark brown spots on leaves", "Brown lesions on stems"] = some d ∧
        (∀ c ∈ findAllBySpecies threeTomatoStore tomatoRecord.type tomatoRecord.speciesName,
          matchCount ["Dark brown spots on leaves", "Brown lesions on stems"] c ≤
            matchCount ["Dark brown spots on leaves", "Brown lesions on stems"] d) ∧
        ∀ (j : Nat) (c : DiseaseEntry), j < i →
          (findAllBySpecies threeTomatoStore tomatoRecord.type tomatoRecord.speciesName)[j]? =
            some c →
          matchCount ["Dark brown spots on leaves", "Brown lesions on stems"] c <
            matchCount ["Dark brown spots on leaves", "Brown lesions on stems"] d := by
  have hcands : findAllBySpecies threeTomatoStore tomatoRecord.type tomatoRecord.speciesName =
      [earlyBlight, lateBlight, septoriaLeafSpot] := by decide
  have hsel : possibleDisease threeTomatoStore tomatoRecord
      ["Dark brown spots on leaves", "Brown lesions on stems"] = some lateBlight := by decide
  obtain ⟨i, d, hi, hd, hmax, hfirst⟩ :=
    possibleDisease_is_first_maximum threeTomatoStore tomatoRecord
      ["Dark brown spots on leaves", "Brown lesions on stems"] (by decide)
  have hdl : d = lateBlight := by
    rw [hsel] at hd
    exact (Option.some.inj hd).symm
  have hi1 : i = 1 := by
    have hi2 := hi
    rw [hcands, hdl] at hi2
    match i, hi2 with
    | 0, h => exact absurd (Option.some.inj h) (by decide)
    | 1, _ => rfl
    | 2, h => exact absurd (Option.some.inj h) (by decide)
    | _ + 3, h => simp at h
  exact ⟨hcands, by decide, by decide, by decide, hsel, i, d, hi1, hdl, hi, hd, hmax, hfirst⟩

/-- C4, evaluated: the only tomato entry shares no symptom with the observed
list, yet for every random draw the update stores `status = completed` and
`diagnosisResult = "Late Blight"` with a confidence. -/
theorem zero_overlap_is_completed (random : ℚ) :
    (∀ e ∈ findAllBySpecies tomatoStore .plant "tomato", matchCount ["Yellow leaves"] e = 0) ∧
      findOneDiagnosis tomatoStore "diag-1" "user-a" = some tomatoRecord ∧
      ∃ (updated : Diagnosis) (details : Option DiseaseEntry),
        updateDiagnosisWithSymptoms tomatoStore "diag-1" "user-a" (.list ["Yellow leaves"])
            random =
          ((updateDiagnosisWithSymptoms tomatoStore "diag-1" "user-a" (.list ["Yellow leaves"])
            random).1, .ok "diag-1" updated details) ∧
        updated.status = .completed ∧
        updated.diagnosisResult = some "Late Blight" ∧
        updated.confidence = some (symptomConfidence random) := by
  have hfound : findOneDiagnosis tomatoStore "diag-1" "user-a" = some tomatoRecord := by decide
  have hcand : findAllBySpecies tomatoStore .plant "tomato" = [lateBlight] := by decide
  refine ⟨?_, hfound, ?_⟩
  · rw [hcand]
    decide
  · rw [update_owned tomatoStore "diag-1" "user-a" ["Yellow leaves"] random tomatoRecord
      (by simp) hfound]
    refine ⟨_, _, rfl, ?_, ?_, ?_⟩
    all_goals
      simp [updatedRow, possibleDisease, tomatoRecord, hcand, selectDisease, reduceBest,
        reducer, resolve, lateBlight]

theorem lexLe_refl (cs : List Char) : lexLe cs cs = true := by
  induction cs with
  | nil => rfl
  | cons c cs ih => simp [lexLe, ih]

theorem parseType_typeName (type : DiagnosisType) : parseType (typeName type) = some type := by
  cases type <;> decide

/-- C2, refuted: with "Late Blight" stored before "Early Blight", the listing
returns Early Blight first, the scorer iterates Late Blight first, both match
one observed symptom, and the scorer selects Late Blight although the name
"Early Blight" is smaller. -/
theorem scorer_iterates_storage_order :
    getDiseasesBySpecies twoTomatoStore "plant" "tomato" = .ok [earlyBlight, lateBlight] ∧
      findAllBySpecies twoTomatoStore .plant "tomato" = [lateBlight, earlyBlight] ∧
      matchCount ["Dark brown spots on leaves"] earlyBlight = 1 ∧
      matchCount ["Dark brown spots on leaves"] lateBlight = 1 ∧
      possibleDisease twoTomatoStore tomatoRecord ["Dark brown spots on leaves"] =
        some lateBlight ∧
      nameLe earlyBlight lateBlight ∧ ¬ nameLe lateBlight earlyBlight := by
  decide

/-- C2 (as amended): the candidate sequence the scorer iterates holds the same
entries as the sequence `getDiseasesBySpecies` returns for the same type and
species, in storage order instead of name order (it is a permutation of the
listing). The selected disease sits at a position of that storage-order
sequence where no candidate scores higher and every earlier candidate scores
strictly lower: among the candidates tied at the greatest `matchCount` it is
the earliest in storage order. When the table is stored in ascending name
order the two sequences are equal, and then the selected disease has the least
name among the candidates tied at the greatest `matchCount`. -/
theorem candidates_are_permutation_of_listing (db : Db) (diagnosis : Diagnosis)
    (symptoms : List String) (hspecies : diagnosis.speciesName ≠ "") :
    ∃ listed : List DiseaseEntry,
      getDiseasesBySpecies db (typeName diagnosis.type) diagnosis.speciesName = .ok listed ∧
      (findAllBySpecies db diagnosis.type diagnosis.speciesName).Perm listed ∧
      (∀ d : DiseaseEntry, possibleDisease db diagnosis symptoms = some d →
        ∃ i : Nat,
          (findAllBySpecies db diagnosis.type diagnosis.speciesName)[i]? = some d ∧
          (∀ c ∈ findAllBySpecies db diagnosis.type diagnosis.speciesName,
            matchCount symptoms c ≤ matchCount symptoms d) ∧
          ∀ (j : Nat) (c : DiseaseEntry),
            (findAllBySpecies db diagnosis.type diagnosis.speciesName)[j]? = some c →
            matchCount symptoms c = matchCount symptoms d → i ≤ j) ∧
      ((db.partition diagnosis.type).Sorted nameLe →
        findAllBySpecies db diagnosis.type diagnosis.speciesName = listed ∧
        ∀ d : DiseaseEntry, possibleDisease db diagnosis symptoms = some d →
          ∀ c ∈ listed, matchCount symptoms c = matchCount symptoms d → nameLe d c) := by
  have hsel : ∀ d : DiseaseEntry, possibleDisease db diagnosis symptoms = some d →
      ∃ i : Nat,
        (findAllBySpecies db diagnosis.type diagnosis.speciesName)[i]? = some d ∧
        (∀ c ∈ findAllBySpecies db diagnosis.type diagnosis.speciesName,
          matchCount symptoms c ≤ matchCount symptoms d) ∧
        ∀ (j : Nat) (c : DiseaseEntry), j < i →
          (findAllBySpecies db diagnosis.type diagnosis.speciesName)[j]? = some c →
          matchCount symptoms c < matchCount symptoms d := by
    intro d hd
    have hne : findAllBySpecies db diagnosis.type diagnosis.speciesName ≠ [] := by
      intro hnil
      rw [(possibleDisease_eq_none_iff db diagnosis symptoms).mpr hnil] at hd
      exact Option.noConfusion hd
    obtain ⟨i, d0, hi, hbest, hmax, hfirst⟩ := reduceBest_first_max symptoms _ hne
    have hlen : (findAllBySpecies db diagnosis.type diagnosis.speciesName).length > 0 :=
      List.length_pos.mpr hne
    simp [possibleDisease, hlen, selectDisease, hbest] at hd
    subst hd
    exact ⟨i, hi, hmax, hfirst⟩
  refine ⟨orderByName (findAllBySpecies db diagnosis.type diagnosis.speciesName), ?_, ?_, ?_, ?_⟩
  · simp [getDiseasesBySpecies, parseType_typeName, hspecies]
  · exact (List.perm_insertionSort nameLe _).symm
  · intro d hd
    obtain ⟨i, hi, hmax, hfirst⟩ := hsel d hd
    refine ⟨i, hi, hmax, ?_⟩
    intro j c hj htie
    by_contra hlt
    have := hfirst j c (by omega) hj
    omega
  · intro hsorted
    have hcs : (findAllBySpecies db diagnosis.type diagnosis.speciesName).Sorted nameLe :=
      List.Sorted.filter _ hsorted
    have heq : orderByName (findAllBySpecies db diagnosis.type diagnosis.speciesName) =
        findAllBySpecies db diagnosis.type diagnosis.speciesName :=
      List.Sorted.insertionSort_eq hcs
    refine ⟨heq.symm, ?_⟩
    intro d hd c hc htie
    rw [heq] at hc
    obtain ⟨i, hi, -, hfirst⟩ := hsel d hd
    obtain ⟨j, hj⟩ := List.mem_iff_getElem?.mp hc
    obtain ⟨hil, hie⟩ := List.getElem?_eq_some.mp hi
    obtain ⟨hjl, hje⟩ := List.getElem?_eq_some.mp hj
    rcases Nat.lt_trichotomy j i with hlt | heqji | hgt
    · have := hfirst j c hlt hj
      omega
    · subst heqji
      rw [hi] at hj
      cases hj
      exact lexLe_refl _
    · have := List.pairwise_iff_getElem.mp hcs i j hil hjl hgt
      rw [hie, hje] at this
      exact this

theorem candidates_are_permutation_of_listing_witness :
    tomatoRecord.speciesName ≠ "" ∧
      (findAllBySpecies twoTomatoStore tomatoRecord.type tomatoRecord.speciesName =
          [lateBlight, earlyBlight] ∧
        getDiseasesBySpecies twoTomatoStore (typeName tomatoRecord.type)
          tomatoRecord.speciesName = .ok [earlyBlight, lateBlight] ∧
        matchCount ["Dark brown spots on leaves"] lateBlight = 1 ∧
        matchCount ["Dark brown spots on leaves"] earlyBlight = 1 ∧
        possibleDisease twoTomatoStore tomatoRecord ["Dark brown spots on leaves"] =
          some lateBlight ∧
        ∃ i : Nat, i = 0 ∧
          (findAllBySpecies twoTomatoStore tomatoRecord.type tomatoRecord.speciesName)[i]? =
            some lateBlight ∧
          ∀ (j : Nat) (c : DiseaseEntry),
            (findAllBySpecies twoTomatoStore tomatoRecord.type tomatoRecord.speciesName)[j]? =
              some c →
            matchCount ["Dark brown spots on leaves"] c =
              matchCount ["Dark brown spots on leaves"] lateBlight → i ≤ j) ∧
      (threeTomatoStore.partition tomatoRecord.type).Sorted nameLe ∧
      getDiseasesBySpecies threeTomatoStore (typeName tomatoRecord.type)
        tomatoRecord.speciesName = .ok [earlyBlight, lateBlight, septoriaLeafSpot] ∧
      findAllBySpecies threeTomatoStore tomatoRecord.type tomatoRecord.speciesName =
        [earlyBlight, lateBlight, septoriaLeafSpot] ∧
      matchCount ["Dark brown spots on leaves", "Brown lesions on stems"] lateBlight =
        matchCount ["Dark brown spots on leaves", "Brown lesions on stems"] septoriaLeafSpot ∧
      possibleDisease threeTomatoStore tomatoRecord
        ["Dark brown spots on leaves", "Brown lesions on stems"] = some lateBlight ∧
      (∃ i : Nat, i = 1 ∧
        (findAllBySpecies threeTomatoStore tomatoRecord.type tomatoRecord.speciesName)[i]? =
          some lateBlight ∧
        ∀ (j : Nat) (c : DiseaseEntry),
          (findAllBySpecies threeTomatoStore tomatoRecord.type tomatoRecord.speciesName)[j]? =
            some c →
          matchCount ["Dark brown spots on leaves", "Brown lesions on stems"] c =
            matchCount ["Dark brown spots on leaves", "Brown lesions on stems"] lateBlight →
          i ≤ j) ∧
      ∀ c ∈ [earlyBlight, lateBlight, septoriaLeafSpot],
        matchCount ["Dark brown spots on leaves", "Brown lesions on stems"] c =
          matchCount ["Dark brown spots on leaves", "Brown lesions on stems"] lateBlight →
        nameLe lateBlight c := by
  have hsel2 : possibleDisease twoTomatoStore tomatoRecord ["Dark brown spots on leaves"] =
      some lateBlight := by decide
  have hsel3 : possibleDisease threeTomatoStore tomatoRecord
      ["Dark brown spots on leaves", "Brown lesions on stems"] = some lateBlight := by decide
  have hcands2 : findAllBySpecies twoTomatoStore tomatoRecord.type tomatoRecord.speciesName =
      [lateBlight, earlyBlight] := by decide
  have hcands3 : findAllBySpecies threeTomatoStore tomatoRecord.type tomatoRecord.speciesName =
      [earlyBlight, lateBlight, septoriaLeafSpot] := by decide
  have hlist3 : getDiseasesBySpecies threeTomatoStore (typeName tomatoRecord.type)
      tomatoRecord.speciesName = .ok [earlyBlight, lateBlight, septoriaLeafSpot] := by decide
  have hsorted : (threeTomatoStore.partition tomatoRecord.type).Sorted nameLe := by decide
  obtain ⟨listed2, -, -, htie2, -⟩ :=
    candidates_are_permutation_of_listing twoTomatoStore tomatoRecord
      ["Dark brown spots on leaves"] (by decide)
  obtain ⟨listed3, hl3, -, htie3, hsorted3⟩ :=
    candidates_are_permutation_of_listing threeTomatoStore tomatoRecord
      ["Dark brown spots on leaves", "Brown lesions on stems"] (by decide)
  obtain ⟨i2, hi2, -, hfirst2⟩ := htie2 lateBlight hsel2
  obtain ⟨i3, hi3, -, hfirst3⟩ := htie3 lateBlight hsel3
  have hi20 : i2 = 0 := by
    have h := hi2
    rw [hcands2] at h
    match i2, h with
    | 0, _ => rfl
    | 1, h => exact absurd (Option.some.inj h) (by decide)
    | _ + 2, h => simp at h
  have hi31 : i3 = 1 := by
    have h := hi3
    rw [hcands3] at h
    match i3, h with
    | 0, h => exact absurd (Option.some.inj h) (by decide)
    | 1, _ => rfl
    | 2, h => exact absurd (Option.some.inj h) (by decide)
    | _ + 3, h => simp at h
  have hlisted3 : listed3 = [earlyBlight, lateBlight, septoriaLeafSpot] := by
    rw [hlist3] at hl3
    injection hl3 with h
    exact h.symm
  have hname := (hsorted3 hsorted).2 lateBlight hsel3
  rw [hlisted3] at hname
  exact ⟨by decide, ⟨hcands2, by decide, by decide, by decide, hsel2, i2, hi20, hi2, hfirst2⟩,
    hsorted, hlist3, hcands3, by decide, hsel3, ⟨i3, hi31, hi3, hfirst3⟩, hname⟩

theorem matchCount_counts_with_repetition_witness :
    ["Dark brown spots on leaves", "Yellow leaves"].Nodup ∧
      "Brown lesions on stems" ∈ lateBlight.symptoms ∧
      matchCount ["Dark brown spots on leaves", "Yellow leaves"] lateBlight =
        (["Dark brown spots on leaves", "Yellow leaves"].toFinset ∩
          lateBlight.symptoms.toFinset).card ∧
      matchCount (["Dark brown spots on leaves", "Yellow leaves"] ++ ["Brown lesions on stems"])
          lateBlight =
        matchCount ["Dark brown spots on leaves", "Yellow leaves"] lateBlight + 1 :=
  ⟨by decide, by decide,
    (matchCount_counts_with_repetition ["Dark brown spots on leaves", "Yellow leaves"]
      lateBlight).2.1 (by decide),
    (matchCount_counts_with_repetition ["Dark brown spots on leaves", "Yellow leaves"]
      lateBlight).2.2 "Brown lesions on stems" (by decide)⟩

/-- C3, refuted: an observed symptom given twice is counted twice, while the
intersection of the two symptom sets has one element. -/
theorem repeated_symptom_counts_twice :
    matchCount ["Dark brown spots on leaves", "Dark brown spots on leaves"] lateBlight = 2 ∧
      (["Dark brown spots on leaves", "Dark brown spots on leaves"].toFinset ∩
        lateBlight.symptoms.toFinset).card = 1 ∧
      matchCount ["Dark brown spots on leaves"] lateBlight = 1 := by
  decide

theorem update_expert_review_iff_no_species_entry_witness :
    ["Brown lesions on stems"] ≠ [] ∧
      findOneDiagnosis tomatoStore "diag-1" "user-a" = some tomatoRecord ∧
      ∃ (updated : Diagnosis) (details : Option DiseaseEntry),
        (updateDiagnosisWithSymptoms tomatoStore "diag-1" "user-a"
            (.list ["Brown lesions on stems"]) (1 / 2)).2 = .ok "diag-1" updated details ∧
          (updateDiagnosisWithSymptoms tomatoStore "diag-1" "user-a"
            (.list ["Brown lesions on stems"]) (1 / 2)).1.diagnoses "diag-1" = some updated ∧
          (updated.status = .expert_review ↔
            ∀ e ∈ tomatoStore.partition tomatoRecord.type,
              e.speciesKey ≠ tomatoRecord.speciesName) ∧
          ((∃ e ∈ tomatoStore.partition tomatoRecord.type,
              e.speciesKey = tomatoRecord.speciesName) →
            updated.status = .completed) :=
  ⟨by decide, by decide,
    update_expert_review_iff_no_species_entry tomatoStore "diag-1" "user-a"
      ["Brown lesions on stems"] (1 / 2) tomatoRecord (by decide) (by decide)⟩

theorem update_tomato_late_blight_witness :
    findOneDiagnosis tomatoStore "diag-1" "user-a" = some tomatoRecord ∧
      findAllBySpecies tomatoStore .plant "tomato" = [lateBlight] ∧
      "Dark brown spots on leaves" ∈ lateBlight.symptoms ∧
      "White fungal growth on undersides of leaves" ∈ lateBlight.symptoms ∧
      ∃ (updated : Diagnosis) (details : Option DiseaseEntry) (confidence : ℚ),
        (updateDiagnosisWithSymptoms tomatoStore "diag-1" "user-a"
            (.list ["Dark brown spots on leaves", "White fungal growth on undersides of leaves"])
            (1 / 2)).2 = .ok "diag-1" updated details ∧
          updated.diagnosisResult = some "Late Blight" ∧
          updated.status = .completed ∧
          updated.confidence = some confidence ∧
          (0.6 : ℚ) ≤ confidence ∧ confidence ≤ 1 :=
  ⟨by decide, by decide, by decide, by decide,
    update_tomato_late_blight tomatoStore "diag-1" "user-a" tomatoRecord lateBlight (1 / 2)
      (by decide) (by decide) (by decide) (by decide) (by decide) (by norm_num) (by norm_num)⟩

theorem update_twice_same_result_witness :
    findOneDiagnosis tomatoStore "diag-1" "user-a" = some tomatoRecord ∧
      ∃ (first second : Diagnosis) (details1 details2 : Option DiseaseEntry),
        (updateDiagnosisWithSymptoms tomatoStore "diag-1" "user-a"
            (.list ["Yellow leaves"]) (1 / 4)).2 = .ok "diag-1" first details1 ∧
          (updateDiagnosisWithSymptoms
              (updateDiagnosisWithSymptoms tomatoStore "diag-1" "user-a"
                (.list ["Yellow leaves"]) (1 / 4)).1
              "diag-1" "user-a" (.list ["Yellow leaves"]) (3 / 4)).2 =
            .ok "diag-1" second details2 ∧
          second.diagnosisResult = first.diagnosisResult ∧
          second.status = first.status ∧
          second = { first with confidence := second.confidence } :=
  ⟨by decide,
    update_twice_same_result tomatoStore "diag-1" "user-a" ["Yellow leaves"] (1 / 4) (3 / 4)
      tomatoRecord (by decide) (by decide)⟩

theorem appending_winner_symptom_is_monotone_witness :
    selectDisease ["Dark brown spots on leaves"] [lateBlight, powderyMildew] =
        some lateBlight ∧
      "Brown lesions on stems" ∈ lateBlight.symptoms ∧
      matchCount ["Dark brown spots on leaves"] lateBlight ≤
        matchCount (["Dark brown spots on leaves"] ++ ["Brown lesions on stems"]) lateBlight :=
  ⟨by decide, by decide,
    (appending_winner_symptom_is_monotone ["Dark brown spots on leaves"]
      [lateBlight, powderyMildew] lateBlight "Brown lesions on stems"
      (by decide) (by decide)).2.1⟩

theorem other_user_gets_not_found_witness :
    tomatoStore.diagnoses "diag-1" = some tomatoRecord ∧
      tomatoRecord.userId = "user-a" ∧ "user-b" ≠ "user-a" ∧
      getDiagnosisById tomatoStore "diag-1" "user-b" = .notFound "Diagnosis not found" ∧
      updateDiagnosisWithSymptoms tomatoStore "diag-1" "user-b" (.list ["Yellow leaves"])
          (1 / 2) = (tomatoStore, .notFound "Diagnosis not found") ∧
      (updateDiagnosisWithSymptoms tomatoStore "diag-1" "user-b" (.list ["Yellow leaves"])
          (1 / 2)).1.diagnoses "diag-1" = some tomatoRecord :=
  ⟨by decide, by decide, by decide,
    other_user_gets_not_found tomatoStore "diag-1" "user-a" "user-b" tomatoRecord
      ["Yellow leaves"] (1 / 2) (by decide) (by decide) (by decide) (by decide)⟩

theorem reachable_result_iff_confidence_witness :
    Reachable
        (updateDiagnosisWithSymptoms (submitDiagnosis seedStore tomatoRequest "diag-1" 0 0).1
          "diag-1" "user-a" (.list ["Yellow leaves"]) (1 / 2)).1 ∧
      ∃ d : Diagnosis,
        (updateDiagnosisWithSymptoms (submitDiagnosis seedStore tomatoRequest "diag-1" 0 0).1
          "diag-1" "user-a" (.list ["Yellow leaves"]) (1 / 2)).1.diagnoses "diag-1" = some d ∧
        d.status = .completed ∧
        (d.diagnosisResult.isSome ↔ d.confidence.isSome) ∧
        (d.status = .completed → d.diagnosisResult.isSome ∧ d.confidence.isSome) := by
  have hreach : Reachable
      (updateDiagnosisWithSymptoms (submitDiagnosis seedStore tomatoRequest "diag-1" 0 0).1
        "diag-1" "user-a" (.list ["Yellow leaves"]) (1 / 2)).1 :=
    Reachable.update
      (Reachable.submit (Reachable.init [lateBlight, powderyMildew] []) tomatoRequest "diag-1" 0 0)
      "diag-1" "user-a" (.list ["Yellow leaves"]) (1 / 2)
  have hfound : findOneDiagnosis (submitDiagnosis seedStore tomatoRequest "diag-1" 0 0).1
      "diag-1" "user-a" = some tomatoRecord := by decide
  have hcand : findAllBySpecies (submitDiagnosis seedStore tomatoRequest "diag-1" 0 0).1
      .plant "tomato" = [lateBlight] := by decide
  have hrow : (updateDiagnosisWithSymptoms (submitDiagnosis seedStore tomatoRequest "diag-1" 0 0).1
      "diag-1" "user-a" (.list ["Yellow leaves"]) (1 / 2)).1.diagnoses "diag-1" =
      some (updatedRow (submitDiagnosis seedStore tomatoRequest "diag-1" 0 0).1 tomatoRecord
        ["Yellow leaves"] (1 / 2)) := by
    rw [update_owned _ "diag-1" "user-a" ["Yellow leaves"] (1 / 2) tomatoRecord (by decide)
      hfound]
    exact diagnoses_put_same _ _ _
  refine ⟨hreach, _, hrow, ?_, reachable_result_iff_confidence _ hreach "diag-1" _ hrow⟩
  simp [updatedRow, possibleDisease, tomatoRecord, hcand, selectDisease, reduceBest, reducer,
    resolve]

/-! ## Rows and catalog after a call -/

theorem findAllBySpecies_of_partition (db1 db2 : Db) (type : DiagnosisType) (species : String)
    (h : db1.partition type = db2.partition type) :
    findAllBySpecies db1 type species = findAllBySpecies db2 type species := by
  unfold findAllBySpecies
  rw [h]

theorem partition_put (db : Db) (id : Uuid) (d : Diagnosis) (type : DiagnosisType) :
    (db.put id d).partition type = db.partition type := by
  cases type <;> rfl

theorem partition_processImage (db : Db) (newId : Uuid) (diagnosis : Diagnosis) (r1 r2 : ℚ)
    (type : DiagnosisType) :
    (processImage db newId diagnosis r1 r2).partition type = db.partition type := by
  unfold processImage
  split
  · simp only
    split
    · exact partition_put _ _ _ _
    · rfl
  · rfl

theorem partition_createDiagnosis (db : Db) (req : SubmitRequest) (t : DiagnosisType)
    (imageUrl : Option String) (newId : Uuid) (r1 r2 : ℚ) (type : DiagnosisType) :
    (createDiagnosis db req t imageUrl newId r1 r2).1.partition type = db.partition type := by
  unfold createDiagnosis
  split
  · rfl
  · simp only
    rw [partition_processImage, partition_put]

/-- The catalog is the same after `submitDiagnosis`. -/
theorem partition_submitDiagnosis (db : Db) (req : SubmitRequest) (newId : Uuid) (r1 r2 : ℚ)
    (type : DiagnosisType) :
    (submitDiagnosis db req newId r1 r2).1.partition type = db.partition type := by
  unfold submitDiagnosis
  split
  · rfl
  · split
    · rfl
    · split
      · exact partition_logUpload _ _ _
      · rw [partition_createDiagnosis, partition_logUpload]

/-- The catalog is the same after `updateDiagnosisWithSymptoms`. -/
theorem partition_updateDiagnosisWithSymptoms (db : Db) (id userId : Uuid) (body : BodyValue)
    (random : ℚ) (type : DiagnosisType) :
    (updateDiagnosisWithSymptoms db id userId body random).1.partition type =
      db.partition type := by
  unfold updateDiagnosisWithSymptoms
  split
  · rfl
  · split
    · rfl
    · simp only
      split <;> rw [partition_put, partition_put]

/-- A row found after the symptom update was there before, or is the resolved
form of the row that was there before. -/
theorem update_row_cases (db : Db) (id userId : Uuid) (body : BodyValue) (random : ℚ)
    (k : Uuid) (d : Diagnosis)
    (h : (updateDiagnosisWithSymptoms db id userId body random).1.diagnoses k = some d) :
    db.diagnoses k = some d ∨
      ∃ found : Diagnosis, db.diagnoses k = some found ∧
        d = updatedRow db found body.toArray random := by
  unfold updateDiagnosisWithSymptoms at h
  split at h
  · exact Or.inl h
  · cases hfound : findOneDiagnosis db id userId with
    | none =>
      rw [hfound] at h
      exact Or.inl h
    | some found =>
      rw [hfound] at h
      have hrow := (findOneDiagnosis_some db id userId found hfound).1
      have hstore : ((db.put id { found with symptoms := body.toArray, status := .pending }).put id
          (updatedRow db found body.toArray random)).diagnoses k = some d := by
        simp only [possibleDisease_put] at h
        split at h <;> exact h
      by_cases hk : k = id
      · subst hk
        rw [diagnoses_put_same] at hstore
        exact Or.inr ⟨found, hrow, (Option.some.inj hstore).symm⟩
      · simp [Db.put, hk] at hstore
        exact Or.inl hstore

theorem processImage_row_cases (db : Db) (newId : Uuid) (diagnosis : Diagnosis) (r1 r2 : ℚ)
    (k : Uuid) (d : Diagnosis)
    (h : (processImage db newId diagnosis r1 r2).diagnoses k = some d) :
    db.diagnoses k = some d ∨
      ∃ e ∈ findAllBySpecies db diagnosis.type diagnosis.speciesName,
        d = { diagnosis with
              diagnosisResult := some e.name
              confidence := some (imageConfidence r2)
              status := .completed } := by
  unfold processImage at h
  split at h
  · simp only at h
    split at h
    · rename_i disease hpick
      by_cases hk : k = newId
      · subst hk
        rw [diagnoses_put_same] at h
        refine Or.inr ⟨disease, ?_, (Option.some.inj h).symm⟩
        split at hpick
        · unfold pickRandom at hpick
          simp only at hpick
          split at hpick
          · exact List.getElem?_mem hpick
          · exact Option.noConfusion hpick
        · exact Option.noConfusion hpick
      · simp [Db.put, hk] at h
        exact Or.inl h
    · exact Or.inl h
  · exact Or.inl h

/-- A row found after `submitDiagnosis` was there before, or is the row just
created (pending, without result), or is the created row completed with the
name of a catalog entry of its type and species. -/
theorem submit_row_cases (db : Db) (req : SubmitRequest) (newId : Uuid) (r1 r2 : ℚ)
    (k : Uuid) (d : Diagnosis)
    (h : (submitDiagnosis db req newId r1 r2).1.diagnoses k = some d) :
    db.diagnoses k = some d ∨
      (d.diagnosisResult = none ∧ d.confidence = none ∧ d.status = .pending) ∨
      ∃ e ∈ findAllBySpecies db d.type d.speciesName,
        d.diagnosisResult = some e.name ∧ d.confidence = some (imageConfidence r2) ∧
          d.status = .completed := by
  unfold submitDiagnosis at h
  split at h
  · exact Or.inl h
  · split at h
    · exact Or.inl h
    · split at h
      · rw [diagnoses_logUpload] at h
        exact Or.inl h
      · rename_i type _ imageUrl _
        unfold createDiagnosis at h
        split at h
        · rw [diagnoses_logUpload] at h
          exact Or.inl h
        · simp only at h
          rcases processImage_row_cases _ _ _ _ _ _ _ h with hold | ⟨e, he, hd⟩
          · by_cases hk : k = newId
            · subst hk
              rw [diagnoses_put_same] at hold
              have hd := (Option.some.inj hold).symm
              subst hd
              exact Or.inr (Or.inl ⟨rfl, rfl, rfl⟩)
            · simp [Db.put, hk] at hold
              rw [diagnoses_logUpload] at hold
              exact Or.inl hold
          · subst hd
            refine Or.inr (Or.inr ⟨e, ?_, rfl, rfl, rfl⟩)
            rw [findAllBySpecies_put] at he
            rw [findAllBySpecies_of_partition _ db _ _ (partition_logUpload db req.file _)] at he
            exact he

/-! ## `expert_review` never keeps a result -/

theorem updatedRow_type (db : Db) (found : Diagnosis) (symptoms : List String) (random : ℚ) :
    (updatedRow db found symptoms random).type = found.type ∧
      (updatedRow db found symptoms random).speciesName = found.speciesName := by
  unfold updatedRow resolve
  split <;> exact ⟨rfl, rfl⟩

theorem updatedRow_resultHasCandidates (db : Db) (found : Diagnosis) (symptoms : List String)
    (random : ℚ) (h : resultHasCandidates db found) :
    resultHasCandidates db (updatedRow db found symptoms random) := by
  have hiff := possibleDisease_eq_none_iff db
    { found with symptoms := symptoms, status := .pending } symptoms
  simp only at hiff
  unfold resultHasCandidates at h ⊢
  rw [(updatedRow_type db found symptoms random).1, (updatedRow_type db found symptoms random).2]
  unfold updatedRow
  cases hp : possibleDisease db { found with symptoms := symptoms, status := .pending } symptoms with
  | none =>
    have hnil := hiff.mp hp
    refine ⟨?_, fun _ => hnil⟩
    intro hres
    exact h.1 (by simpa [resolve] using hres)
  | some e =>
    have hne : findAllBySpecies db found.type found.speciesName ≠ [] := by
      intro hnil
      rw [hiff.mpr hnil] at hp
      exact Option.noConfusion hp
    refine ⟨fun _ => hne, ?_⟩
    intro hst
    simp [resolve] at hst

theorem resultHasCandidates_of_partition (db1 db2 : Db) (d : Diagnosis)
    (hpart : ∀ type, db1.partition type = db2.partition type)
    (h : resultHasCandidates db2 d) : resultHasCandidates db1 d := by
  unfold resultHasCandidates at h ⊢
  rw [findAllBySpecies_of_partition db1 db2 _ _ (hpart _)]
  exact h

theorem reachable_resultHasCandidates (db : Db) (h : Reachable db) :
    ∀ k d, db.diagnoses k = some d → resultHasCandidates db d := by
  induction h with
  | init p l =>
    intro k d hk
    simp at hk
  | @submit db0 _ req newId r1 r2 ih =>
    intro k d hk
    apply resultHasCandidates_of_partition _ db0 d
      (fun type => partition_submitDiagnosis db0 req newId r1 r2 type)
    rcases submit_row_cases db0 req newId r1 r2 k d hk with hold | ⟨hres, _, hst⟩ | ⟨e, he, hres, _, hst⟩
    · exact ih k d hold
    · exact ⟨by simp [hres], by simp [hst]⟩
    · exact ⟨fun _ => List.ne_nil_of_mem he, by simp [hst]⟩
  | @update db0 _ id userId body random ih =>
    intro k d hk
    apply resultHasCandidates_of_partition _ db0 d
      (fun type => partition_updateDiagnosisWithSymptoms db0 id userId body random type)
    rcases update_row_cases db0 id userId body random k d hk with hold | ⟨found, hfound, hd⟩
    · exact ih k d hold
    · rw [hd]
      exact updatedRow_resultHasCandidates db0 found _ random (ih k found hfound)

/-- C11: in a store reachable from an empty diagnosis table by calls of
`submitDiagnosis` and `updateDiagnosisWithSymptoms` (which leave the catalog as
it is), a row with status `expert_review` has neither `diagnosisResult` nor
`confidence`. -/
theorem reachable_expert_review_without_result (db : Db) (h : Reachable db) (id : Uuid)
    (d : Diagnosis) (hrow : db.diagnoses id = some d) (hstatus : d.status = .expert_review) :
    d.diagnosisResult = none ∧ d.confidence = none := by
  have hcand := reachable_resultHasCandidates db h id d hrow
  have hconf := reachable_resultWithConfidence db h id d hrow
  have hres : d.diagnosisResult = none := by
    cases hr : d.diagnosisResult with
    | none => rfl
    | some n => exact absurd (hcand.2 hstatus) (hcand.1 (by simp [hr]))
  refine ⟨hres, ?_⟩
  cases hc : d.confidence with
  | none => rfl
  | some c =>
    have := hconf.1.mpr (by simp [hc])
    simp [hres] at this

theorem reachable_expert_review_without_result_witness :
    Reachable
        (updateDiagnosisWithSymptoms (submitDiagnosis seedStore bananaRequest "diag-2" 0 0).1
          "diag-2" "user-a" (.list ["Yellow leaves"]) (1 / 2)).1 ∧
      ∃ d : Diagnosis,
        (updateDiagnosisWithSymptoms (submitDiagnosis seedStore bananaRequest "diag-2" 0 0).1
          "diag-2" "user-a" (.list ["Yellow leaves"]) (1 / 2)).1.diagnoses "diag-2" = some d ∧
        d.status = .expert_review ∧ d.diagnosisResult = none ∧ d.confidence = none := by
  have hreach : Reachable
      (updateDiagnosisWithSymptoms (submitDiagnosis seedStore bananaRequest "diag-2" 0 0).1
        "diag-2" "user-a" (.list ["Yellow leaves"]) (1 / 2)).1 :=
    Reachable.update
      (Reachable.submit (Reachable.init [lateBlight, powderyMildew] []) bananaRequest "diag-2" 0 0)
      "diag-2" "user-a" (.list ["Yellow leaves"]) (1 / 2)
  have hfound : findOneDiagnosis (submitDiagnosis seedStore bananaRequest "diag-2" 0 0).1
      "diag-2" "user-a" = some (createdRow bananaRequest .plant none) := by decide
  have hcand : findAllBySpecies (submitDiagnosis seedStore bananaRequest "diag-2" 0 0).1
      .plant "banana" = [] := by decide
  have hrow : (updateDiagnosisWithSymptoms (submitDiagnosis seedStore bananaRequest "diag-2" 0 0).1
      "diag-2" "user-a" (.list ["Yellow leaves"]) (1 / 2)).1.diagnoses "diag-2" =
      some (updatedRow (submitDiagnosis seedStore bananaRequest "diag-2" 0 0).1
        (createdRow bananaRequest .plant none) ["Yellow leaves"] (1 / 2)) := by
    rw [update_owned _ "diag-2" "user-a" ["Yellow leaves"] (1 / 2) _ (by decide) hfound]
    exact diagnoses_put_same _ _ _
  have hstatus : (updatedRow (submitDiagnosis seedStore bananaRequest "diag-2" 0 0).1
      (createdRow bananaRequest .plant none) ["Yellow leaves"] (1 / 2)).status =
      .expert_review :=
    (updatedRow_status _ _ _ _).1.mpr hcand
  exact ⟨hreach, _, hrow, hstatus,
    reachable_expert_review_without_result _ hreach "diag-2" _ hrow hstatus⟩

/-! ## Confidence ranges -/

theorem imageConfidence_bounds (random : ℚ) (h0 : 0 ≤ random) (h1 : random < 1) :
    (0.7 : ℚ) ≤ imageConfidence random ∧ imageConfidence random ≤ 1 := by
  have h := toFixed2_bounds (0.7 + random * 0.3) 70 100 (by norm_num; nlinarith)
    (by norm_num; nlinarith)
  unfold imageConfidence
  constructor
  · have := h.1
    norm_num at this ⊢
    linarith
  · have := h.2
    norm_num at this ⊢
    linarith

/-- The image-driven identification on a row with an image URL. -/
theorem processImage_with_image (db : Db) (newId : Uuid) (row : Diagnosis) (r1 r2 : ℚ)
    (himage : truthy row.imageUrl = true) :
    (findAllBySpecies db row.type row.speciesName = [] →
        processImage db newId row r1 r2 = db) ∧
      ∀ e : DiseaseEntry, pickRandom (findAllBySpecies db row.type row.speciesName) r1 = some e →
        findAllBySpecies db row.type row.speciesName ≠ [] →
        processImage db newId row r1 r2 =
          db.put newId
            { row with
              diagnosisResult := some e.name
              confidence := some (imageConfidence r2)
              status := .completed } := by
  constructor
  · intro hnil
    simp [processImage, himage, hnil]
  · intro e hpick hne
    have hlen : 0 < (findAllBySpecies db row.type row.speciesName).length :=
      List.length_pos.mpr hne
    simp [processImage, himage, hlen, hpick]

/-- The value `toFixed2` yields is a whole number of hundredths and differs from
its argument by at most half a hundredth. -/
theorem toFixed2_nearest (x : ℚ) :
    ∃ n : ℤ, toFixed2 x = (n : ℚ) / 100 ∧ |toFixed2 x - x| ≤ 1 / 200 := by
  refine ⟨⌊x * 100 + 1 / 2⌋, rfl, ?_⟩
  unfold toFixed2
  have h1 : ((⌊x * 100 + 1 / 2⌋ : ℤ) : ℚ) ≤ x * 100 + 1 / 2 := Int.floor_le _
  have h2 : x * 100 + 1 / 2 < ((⌊x * 100 + 1 / 2⌋ : ℤ) : ℚ) + 1 := Int.lt_floor_add_one _
  rw [abs_le]
  constructor <;> linarith

/-- C12: for every random draw `r` with `0 ≤ r < 1`, the confidence a
symptom-driven match stores is `0.6 + 0.4 r` rounded to two decimals (a whole
number of hundredths at most half a hundredth away from it) and lies in
[0.6, 1.0]; the confidence an image-driven match stores is `0.7 + 0.3 r`
rounded to two decimals and lies in [0.7, 1.0]; both lie in [0, 1]. -/
theorem confidence_ranges (r : ℚ) (h0 : 0 ≤ r) (h1 : r < 1) :
    (∀ (d : Diagnosis) (e : DiseaseEntry),
        (resolve d (some e) r).confidence = some (symptomConfidence r)) ∧
      (∀ (db : Db) (newId : Uuid) (row : Diagnosis) (r1 : ℚ) (e : DiseaseEntry),
        truthy row.imageUrl = true →
        pickRandom (findAllBySpecies db row.type row.speciesName) r1 = some e →
        ((processImage db newId row r1 r).diagnoses newId).map (fun d => d.confidence) =
          some (some (imageConfidence r))) ∧
      symptomConfidence r = toFixed2 (0.6 + r * 0.4) ∧
      imageConfidence r = toFixed2 (0.7 + r * 0.3) ∧
      (∃ n : ℤ, symptomConfidence r = (n : ℚ) / 100 ∧ 60 ≤ n ∧ n ≤ 100 ∧
        |symptomConfidence r - (0.6 + r * 0.4)| ≤ 1 / 200) ∧
      (∃ n : ℤ, imageConfidence r = (n : ℚ) / 100 ∧ 70 ≤ n ∧ n ≤ 100 ∧
        |imageConfidence r - (0.7 + r * 0.3)| ≤ 1 / 200) ∧
      (0.6 : ℚ) ≤ symptomConfidence r ∧ symptomConfidence r ≤ 1 ∧
      (0.7 : ℚ) ≤ imageConfidence r ∧ imageConfidence r ≤ 1 ∧
      (0 ≤ symptomConfidence r ∧ symptomConfidence r ≤ 1) ∧
      (0 ≤ imageConfidence r ∧ imageConfidence r ≤ 1) := by
  have hs := symptomConfidence_bounds r h0 h1
  have hi := imageConfidence_bounds r h0 h1
  have hround : ∀ x : ℚ, ∀ lo : ℤ, (lo : ℚ) / 100 ≤ toFixed2 x → toFixed2 x ≤ 1 →
      ∃ n : ℤ, toFixed2 x = (n : ℚ) / 100 ∧ lo ≤ n ∧ n ≤ 100 ∧ |toFixed2 x - x| ≤ 1 / 200 := by
    intro x lo hlo hhi
    obtain ⟨n, hn, habs⟩ := toFixed2_nearest x
    refine ⟨n, hn, ?_, ?_, habs⟩
    · rw [hn] at hlo
      have : (lo : ℚ) ≤ (n : ℚ) := by
        have h100 : (0 : ℚ) < 100 := by norm_num
        exact (div_le_div_iff_of_pos_right h100).mp hlo
      exact_mod_cast this
    · rw [hn] at hhi
      have : (n : ℚ) ≤ 100 := by
        have h100 : (0 : ℚ) < 100 := by norm_num
        rw [div_le_iff₀ h100] at hhi
        linarith
      exact_mod_cast this
  refine ⟨fun d e => rfl, ?_, rfl, rfl, ?_, ?_, hs.1, hs.2, hi.1, hi.2, ⟨?_, hs.2⟩, ⟨?_, hi.2⟩⟩
  · intro db newId row r1 e himage hpick
    have hne : findAllBySpecies db row.type row.speciesName ≠ [] := by
      intro hnil
      rw [hnil] at hpick
      simp [pickRandom] at hpick
    rw [(processImage_with_image db newId row r1 r himage).2 e hpick hne, diagnoses_put_same]
    rfl
  · have h := hround (0.6 + r * 0.4) 60 (by have := hs.1; unfold symptomConfidence at this; norm_num at this ⊢; linarith) hs.2
    exact h
  · have h := hround (0.7 + r * 0.3) 70 (by have := hi.1; unfold imageConfidence at this; norm_num at this ⊢; linarith) hi.2
    exact h
  · have := hs.1
    norm_num at this ⊢
    linarith
  · have := hi.1
    norm_num at this ⊢
    linarith

theorem confidence_ranges_witness :
    (0 : ℚ) ≤ 1 / 3 ∧ (1 / 3 : ℚ) < 1 ∧
      symptomConfidence (1 / 3) = 73 / 100 ∧ imageConfidence (1 / 3) = 80 / 100 ∧
      (resolve tomatoRecord (some lateBlight) (1 / 3)).confidence = some (73 / 100) ∧
      (∃ n : ℤ, symptomConfidence (1 / 3) = (n : ℚ) / 100 ∧ 60 ≤ n ∧ n ≤ 100 ∧
        |symptomConfidence (1 / 3) - (0.6 + 1 / 3 * 0.4)| ≤ 1 / 200) ∧
      (∃ n : ℤ, imageConfidence (1 / 3) = (n : ℚ) / 100 ∧ 70 ≤ n ∧ n ≤ 100 ∧
        |imageConfidence (1 / 3) - (0.7 + 1 / 3 * 0.3)| ≤ 1 / 200) ∧
      (0.6 : ℚ) ≤ symptomConfidence (1 / 3) ∧ symptomConfidence (1 / 3) ≤ 1 ∧
      (0.7 : ℚ) ≤ imageConfidence (1 / 3) ∧ imageConfidence (1 / 3) ≤ 1 := by
  have hsv : symptomConfidence (1 / 3) = 73 / 100 := by
    norm_num [symptomConfidence, toFixed2]
  have hiv : imageConfidence (1 / 3) = 80 / 100 := by
    norm_num [imageConfidence, toFixed2]
  have h := confidence_ranges (1 / 3) (by norm_num) (by norm_num)
  refine ⟨by norm_num, by norm_num, hsv, hiv, ?_, h.2.2.2.2.1, h.2.2.2.2.2.1,
    h.2.2.2.2.2.2.1, h.2.2.2.2.2.2.2.1, h.2.2.2.2.2.2.2.2.1, h.2.2.2.2.2.2.2.2.2.1⟩
  rw [h.1 tomatoRecord lateBlight, hsv]

/-! ## Validation of a submission -/

/-- C13, evaluated: a submission with `symptoms: []` and otherwise valid fields
is answered 201 and a pending row with an empty symptom list is stored, while
the symptom update answers the same empty array with 400. -/
theorem submit_accepts_empty_symptom_list (r1 r2 random : ℚ) :
    emptySymptomsRequest.symptoms = .list [] ∧
      submitDiagnosis seedStore emptySymptomsRequest "diag-1" r1 r2 =
        (seedStore.put "diag-1" { tomatoRecord with symptoms := [] },
          .created "diag-1" (some { tomatoRecord with symptoms := [] })) ∧
      updateDiagnosisWithSymptoms tomatoStore "diag-1" "user-a" (.list []) random =
        (tomatoStore, .badRequest "Symptoms array is required") := by
  refine ⟨rfl, ?_, rfl⟩
  rfl

/-- C14: a submission whose `type` is present but is neither "plant" nor
"livestock" is answered 400 and returns the state as it was: no call of
`uploadToS3` is recorded and no diagnosis row is written. -/
theorem submit_invalid_type_is_rejected (db : Db) (req : SubmitRequest) (newId : Uuid)
    (r1 r2 : ℚ) (type : String) (htype : req.type = some type)
    (hplant : type ≠ "plant") (hlivestock : type ≠ "livestock") :
    ∃ message : String,
      submitDiagnosis db req newId r1 r2 = (db, .badRequest message) ∧
      (submitDiagnosis db req newId r1 r2).1.uploads = db.uploads ∧
      (submitDiagnosis db req newId r1 r2).1.diagnoses = db.diagnoses := by
  unfold submitDiagnosis
  split
  · exact ⟨_, rfl, rfl, rfl⟩
  · have hnone : parseType (req.type.getD "") = none := by
      simp [htype, parseType, hplant, hlivestock]
    rw [hnone]
    exact ⟨_, rfl, rfl, rfl⟩

theorem submit_invalid_type_is_rejected_witness :
    capitalTypeRequest.type = some "Plant" ∧ "Plant" ≠ "plant" ∧ "Plant" ≠ "livestock" ∧
      ∃ message : String,
        submitDiagnosis seedStore capitalTypeRequest "diag-1" 0 0 =
          (seedStore, .badRequest message) ∧
        (submitDiagnosis seedStore capitalTypeRequest "diag-1" 0 0).1.uploads =
          seedStore.uploads ∧
        (submitDiagnosis seedStore capitalTypeRequest "diag-1" 0 0).1.diagnoses =
          seedStore.diagnoses :=
  ⟨by decide, by decide, by decide,
    submit_invalid_type_is_rejected seedStore capitalTypeRequest "diag-1" 0 0 "Plant"
      (by decide) (by decide) (by decide)⟩

/-- A missing or empty `type`, `speciesName` or `symptoms` value is answered 400
and the state stays as it was. -/
theorem submit_missing_field_is_rejected (db : Db) (req : SubmitRequest) (newId : Uuid)
    (r1 r2 : ℚ)
    (h : truthy req.type = false ∨ truthy req.speciesName = false ∨ req.symptoms.falsy = true) :
    submitDiagnosis db req newId r1 r2 =
      (db, .badRequest "Missing required fields: type, speciesName, symptoms") := by
  unfold submitDiagnosis
  rcases h with h | h | h <;> simp [h]

/-! ## What a valid submission stores -/

theorem parseType_getD_typeName (type : DiagnosisType) :
    parseType ((some (typeName type)).getD "") = some type := by
  cases type <;> decide

theorem truthy_typeName (type : DiagnosisType) : truthy (some (typeName type)) = true := by
  cases type <;> decide

/-- A valid submission with a fresh key creates a row and then runs the
image-driven identification on it. -/
theorem submit_valid (db : Db) (req : SubmitRequest) (newId : Uuid) (r1 r2 : ℚ)
    (type : DiagnosisType) (species : String) (imageUrl : Option String)
    (htype : req.type = some (typeName type)) (hspecies : req.speciesName = some species)
    (hne : species ≠ "") (hsymptoms : req.symptoms.falsy = false)
    (hupload : uploadImage req.file = .ok imageUrl)
    (hfresh : db.diagnoses newId = none) :
    submitDiagnosis db req newId r1 r2 =
      (processImage ((db.logUpload req.file).put newId (createdRow req type imageUrl)) newId
          (createdRow req type imageUrl) r1 r2,
        .created newId
          (findByPk
            (processImage ((db.logUpload req.file).put newId (createdRow req type imageUrl)) newId
              (createdRow req type imageUrl) r1 r2) newId)) := by
  have hfresh2 : (db.logUpload req.file).diagnoses newId = none := by
    rw [diagnoses_logUpload]
    exact hfresh
  have hsp : truthy (some species) = true := by simp [truthy, hne]
  unfold submitDiagnosis
  rw [htype, hspecies, truthy_typeName, hsp, hsymptoms, parseType_getD_typeName, hupload]
  simp [createDiagnosis, hfresh2, createdRow, hspecies]

/-- C15: a valid submission without an attached image (type "plant" or
"livestock", non-empty species, symptoms present, fresh primary key) is
answered 201 and stores exactly one new row: status `pending`, no
`diagnosisResult`, no `confidence`, no `imageUrl`, and the submitted type,
`speciesName`, symptoms, temperature, notes, location and the caller's
`userId`, whatever the catalog holds and whatever the random draws are. -/
theorem submit_without_image_is_pending (db : Db) (req : SubmitRequest) (newId : Uuid)
    (r1 r2 : ℚ) (type : DiagnosisType) (species : String)
    (htype : req.type = some (typeName type)) (hspecies : req.speciesName = some species)
    (hne : species ≠ "") (hsymptoms : req.symptoms.falsy = false)
    (hfile : req.file = none) (hfresh : db.diagnoses newId = none) :
    submitDiagnosis db req newId r1 r2 =
      (db.put newId
          { userId := req.userId
            type := type
            speciesName := species
            symptoms := req.symptoms.toArray
            imageUrl := none
            temperature := req.temperature
            diagnosisResult := none
            confidence := none
            status := .pending
            notes := req.notes
            location := req.location },
        .created newId
          (some
            { userId := req.userId
              type := type
              speciesName := species
              symptoms := req.symptoms.toArray
              imageUrl := none
              temperature := req.temperature
              diagnosisResult := none
              confidence := none
              status := .pending
              notes := req.notes
              location := req.location })) := by
  have hupload : uploadImage req.file = .ok none := by rw [hfile]; rfl
  rw [submit_valid db req newId r1 r2 type species none htype hspecies hne hsymptoms hupload
    hfresh]
  simp [processImage, createdRow, truthy, hfile, Db.logUpload, findByPk, diagnoses_put_same,
    hspecies]

theorem submit_without_image_is_pending_witness :
    bananaRequest.type = some (typeName .plant) ∧ bananaRequest.speciesName = some "banana" ∧
      bananaRequest.file = none ∧ seedStore.diagnoses "diag-2" = none ∧
      submitDiagnosis seedStore bananaRequest "diag-2" (1 / 3) (2 / 3) =
        (seedStore.put "diag-2"
            { userId := "user-a"
              type := .plant
              speciesName := "banana"
              symptoms := ["Yellow leaves"]
              imageUrl := none
              temperature := none
              diagnosisResult := none
              confidence := none
              status := .pending
              notes := some "lower leaves first"
              location := some "Kampala" },
          .created "diag-2"
            (some
              { userId := "user-a"
                type := .plant
                speciesName := "banana"
                symptoms := ["Yellow leaves"]
                imageUrl := none
                temperature := none
                diagnosisResult := none
                confidence := none
                status := .pending
                notes := some "lower leaves first"
                location := some "Kampala" })) :=
  ⟨by decide, by decide, by decide, by decide,
    submit_without_image_is_pending seedStore bananaRequest "diag-2" (1 / 3) (2 / 3) .plant
      "banana" (by decide) (by decide) (by decide) (by decide) (by decide) (by decide)⟩

theorem pickRandom_some (diseases : List DiseaseEntry) (random : ℚ) (hne : diseases ≠ [])
    (h0 : 0 ≤ random) (h1 : random < 1) :
    ∃ e ∈ diseases, pickRandom diseases random = some e := by
  have hlen : 0 < diseases.length := List.length_pos.mpr hne
  have hlenq : (0 : ℚ) < (diseases.length : ℚ) := by exact_mod_cast hlen
  have hfloor0 : 0 ≤ ⌊random * (diseases.length : ℚ)⌋ :=
    Int.floor_nonneg.mpr (mul_nonneg h0 (le_of_lt hlenq))
  have hfloor1 : ⌊random * (diseases.length : ℚ)⌋ < (diseases.length : ℤ) := by
    apply Int.floor_lt.mpr
    push_cast
    nlinarith
  have hidx : ⌊random * (diseases.length : ℚ)⌋.toNat < diseases.length := by
    omega
  refine ⟨diseases[⌊random * (diseases.length : ℚ)⌋.toNat], List.getElem_mem _, ?_⟩
  unfold pickRandom
  simp only [hfloor0, if_true]
  exact List.getElem?_eq_getElem hidx

theorem findAllBySpecies_eq_nil_iff (db : Db) (type : DiagnosisType) (species : String) :
    findAllBySpecies db type species = [] ↔
      ∀ e ∈ db.partition type, e.speciesKey ≠ species := by
  simp [findAllBySpecies, List.filter_eq_nil_iff]

theorem mem_findAllBySpecies (db : Db) (type : DiagnosisType) (species : String)
    (e : DiseaseEntry) :
    e ∈ findAllBySpecies db type species ↔ e ∈ db.partition type ∧ e.speciesKey = species := by
  simp [findAllBySpecies]

/-- C16: a valid submission with an image that S3 stores under a non-empty URL
(fresh primary key, index draw in [0, 1)) is answered 201 with the stored row.
If the table of the submitted type has an entry whose species key equals
`speciesName`, the row is `completed` and its `diagnosisResult` is the name of
such an entry, the one the index draw picks from the entries of that species,
whatever symptoms were submitted; if it has none, the row is `pending` without
`diagnosisResult` and `confidence`. -/
theorem submit_with_image (db : Db) (req : SubmitRequest) (newId : Uuid) (r1 r2 : ℚ)
    (type : DiagnosisType) (species location : String)
    (htype : req.type = some (typeName type)) (hspecies : req.speciesName = some species)
    (hne : species ≠ "") (hsymptoms : req.symptoms.falsy = false)
    (hfile : req.file = some (.stored location)) (hlocation : location ≠ "")
    (hfresh : db.diagnoses newId = none) (h0 : 0 ≤ r1) (h1 : r1 < 1) :
    ∃ d : Diagnosis,
      (submitDiagnosis db req newId r1 r2).2 = .created newId (some d) ∧
      (submitDiagnosis db req newId r1 r2).1.diagnoses newId = some d ∧
      d.imageUrl = some location ∧ d.symptoms = req.symptoms.toArray ∧
      ((∃ e ∈ db.partition type, e.speciesKey = species) →
        d.status = .completed ∧
        ∃ e ∈ db.partition type, e.speciesKey = species ∧
          pickRandom (findAllBySpecies db type species) r1 = some e ∧
          d.diagnosisResult = some e.name ∧ d.confidence = some (imageConfidence r2)) ∧
      ((∀ e ∈ db.partition type, e.speciesKey ≠ species) →
        d.status = .pending ∧ d.diagnosisResult = none ∧ d.confidence = none) := by
  have hupload : uploadImage req.file = .ok (some location) := by rw [hfile]; rfl
  rw [submit_valid db req newId r1 r2 type species (some location) htype hspecies hne hsymptoms
    hupload hfresh]
  have himage : truthy (createdRow req type (some location)).imageUrl = true := by
    simp [createdRow, truthy, hlocation]
  have hcands : findAllBySpecies ((db.logUpload req.file).put newId
      (createdRow req type (some location))) (createdRow req type (some location)).type
      (createdRow req type (some location)).speciesName = findAllBySpecies db type species := by
    rw [findAllBySpecies_put,
      findAllBySpecies_of_partition _ db _ _ (partition_logUpload db req.file _)]
    simp [createdRow, hspecies]
  have hproc := processImage_with_image ((db.logUpload req.file).put newId
    (createdRow req type (some location))) newId (createdRow req type (some location)) r1 r2
    himage
  rw [hcands] at hproc
  by_cases hnil : findAllBySpecies db type species = []
  · rw [hproc.1 hnil]
    refine ⟨createdRow req type (some location), ?_, diagnoses_put_same _ _ _, rfl, rfl, ?_, ?_⟩
    · simp [findByPk, diagnoses_put_same]
    · rintro ⟨e, he, hk⟩
      exact absurd hk ((findAllBySpecies_eq_nil_iff db type species).mp hnil e he)
    · intro _
      exact ⟨rfl, rfl, rfl⟩
  · obtain ⟨e, he, hpick⟩ := pickRandom_some _ r1 hnil h0 h1
    rw [hproc.2 e hpick hnil]
    refine ⟨_, ?_, diagnoses_put_same _ _ _, rfl, rfl, ?_, ?_⟩
    · simp [findByPk, diagnoses_put_same]
    · intro _
      have hmem := (mem_findAllBySpecies db type species e).mp he
      exact ⟨rfl, e, hmem.1, hmem.2, hpick, rfl, rfl⟩
    · intro hall
      exact absurd ((findAllBySpecies_eq_nil_iff db type species).mpr hall) hnil

theorem submit_with_image_witness :
    tomatoImageRequest.type = some (typeName .plant) ∧
      tomatoImageRequest.speciesName = some "tomato" ∧
      tomatoImageRequest.file =
        some (.stored "https://agrihealth.s3.amazonaws.com/diagnoses/1-image.jpg") ∧
      seedStore.diagnoses "diag-3" = none ∧
      (∃ e ∈ seedStore.partition .plant, e.speciesKey = "tomato") ∧
      ∃ d : Diagnosis,
        (submitDiagnosis seedStore tomatoImageRequest "diag-3" (1 / 2) (1 / 2)).2 =
          .created "diag-3" (some d) ∧
        d.status = .completed ∧
        ∃ e ∈ seedStore.partition .plant, e.speciesKey = "tomato" ∧
          d.diagnosisResult = some e.name := by
  have hex : ∃ e ∈ seedStore.partition .plant, e.speciesKey = "tomato" :=
    ⟨lateBlight, by decide, by decide⟩
  obtain ⟨d, hresp, -, -, -, hsome, -⟩ :=
    submit_with_image seedStore tomatoImageRequest "diag-3" (1 / 2) (1 / 2) .plant "tomato"
      "https://agrihealth.s3.amazonaws.com/diagnoses/1-image.jpg"
      (by decide) (by decide) (by decide) (by decide) (by decide) (by decide) (by decide)
      (by norm_num) (by norm_num)
  obtain ⟨hst, e, he, hk, -, hres, -⟩ := hsome hex
  exact ⟨by decide, by decide, by decide, by decide, hex, d, hresp, hst, e, he, hk, hres⟩

/-! ## The symptom update: validation, status and fields -/

/-- C17: when `symptoms` is missing, is not an array, or is the empty array,
`updateDiagnosisWithSymptoms` answers 400 and returns the state as it was, so
the stored record keeps its symptoms, status, `diagnosisResult` and
`confidence`. -/
theorem update_invalid_symptoms_is_rejected (db : Db) (id userId : Uuid) (random : ℚ) :
    updateDiagnosisWithSymptoms db id userId .absent random =
        (db, .badRequest "Symptoms array is required") ∧
      (∀ s : String, updateDiagnosisWithSymptoms db id userId (.text s) random =
        (db, .badRequest "Symptoms array is required")) ∧
      updateDiagnosisWithSymptoms db id userId (.list []) random =
        (db, .badRequest "Symptoms array is required") := by
  refine ⟨rfl, ?_, rfl⟩
  intro s
  simp [updateDiagnosisWithSymptoms, BodyValue.falsy, BodyValue.isArray]

theorem updatedRow_status_ne_pending (db : Db) (found : Diagnosis) (symptoms : List String)
    (random : ℚ) :
    (updatedRow db found symptoms random).status = .completed ∨
      (updatedRow db found symptoms random).status = .expert_review := by
  unfold updatedRow resolve
  split
  · exact Or.inl rfl
  · exact Or.inr rfl

/-- C18: for an owned record in any status and a non-empty symptom list, the
update answers 200 and the row it stores and returns has status `completed` or
`expert_review`, never `pending`. -/
theorem update_never_leaves_pending (db : Db) (id userId : Uuid) (symptoms : List String)
    (random : ℚ) (found : Diagnosis) (hs : symptoms ≠ [])
    (hfound : findOneDiagnosis db id userId = some found) :
    ∃ (updated : Diagnosis) (details : Option DiseaseEntry),
      (updateDiagnosisWithSymptoms db id userId (.list symptoms) random).2 =
          .ok id updated details ∧
        (updateDiagnosisWithSymptoms db id userId (.list symptoms) random).1.diagnoses id =
          some updated ∧
        (updated.status = .completed ∨ updated.status = .expert_review) ∧
        updated.status ≠ .pending := by
  rw [update_owned db id userId symptoms random found hs hfound]
  refine ⟨updatedRow db found symptoms random, _, rfl, diagnoses_put_same _ _ _,
    updatedRow_status_ne_pending db found symptoms random, ?_⟩
  rcases updatedRow_status_ne_pending db found symptoms random with h | h <;> simp [h]

theorem update_never_leaves_pending_witness :
    ["Yellow leaves"] ≠ [] ∧
      findOneDiagnosis tomatoStore "diag-1" "user-a" = some tomatoRecord ∧
      tomatoRecord.status = .pending ∧
      ∃ (updated : Diagnosis) (details : Option DiseaseEntry),
        (updateDiagnosisWithSymptoms tomatoStore "diag-1" "user-a" (.list ["Yellow leaves"])
            (1 / 2)).2 = .ok "diag-1" updated details ∧
          (updateDiagnosisWithSymptoms tomatoStore "diag-1" "user-a" (.list ["Yellow leaves"])
            (1 / 2)).1.diagnoses "diag-1" = some updated ∧
          (updated.status = .completed ∨ updated.status = .expert_review) ∧
          updated.status ≠ .pending :=
  ⟨by decide, by decide, by decide,
    update_never_leaves_pending tomatoStore "diag-1" "user-a" ["Yellow leaves"] (1 / 2)
      tomatoRecord (by decide) (by decide)⟩

theorem updatedRow_fields (db : Db) (found : Diagnosis) (symptoms : List String) (random : ℚ) :
    (updatedRow db found symptoms random).symptoms = symptoms ∧
      (updatedRow db found symptoms random).userId = found.userId ∧
      (updatedRow db found symptoms random).type = found.type ∧
      (updatedRow db found symptoms random).speciesName = found.speciesName ∧
      (updatedRow db found symptoms random).imageUrl = found.imageUrl ∧
      (updatedRow db found symptoms random).temperature = found.temperature ∧
      (updatedRow db found symptoms random).notes = found.notes ∧
      (updatedRow db found symptoms random).location = found.location := by
  unfold updatedRow resolve
  split <;> exact ⟨rfl, rfl, rfl, rfl, rfl, rfl, rfl, rfl⟩

/-- C19: for an owned record and a non-empty symptom list, the update answers
200 under the same id, and the row stored under that id has exactly the new
list as symptoms and the `userId`, type, `speciesName`, `imageUrl`,
temperature, notes and location it had before. -/
theorem update_replaces_symptoms_only (db : Db) (id userId : Uuid) (symptoms : List String)
    (random : ℚ) (found : Diagnosis) (hs : symptoms ≠ [])
    (hfound : findOneDiagnosis db id userId = some found) :
    ∃ (updated : Diagnosis) (details : Option DiseaseEntry),
      (updateDiagnosisWithSymptoms db id userId (.list symptoms) random).2 =
          .ok id updated details ∧
        (updateDiagnosisWithSymptoms db id userId (.list symptoms) random).1.diagnoses id =
          some updated ∧
        updated.symptoms = symptoms ∧
        updated.userId = found.userId ∧
        updated.type = found.type ∧
        updated.speciesName = found.speciesName ∧
        updated.imageUrl = found.imageUrl ∧
        updated.temperature = found.temperature ∧
        updated.notes = found.notes ∧
        updated.location = found.location := by
  rw [update_owned db id userId symptoms random found hs hfound]
  exact ⟨updatedRow db found symptoms random, _, rfl, diagnoses_put_same _ _ _,
    updatedRow_fields db found symptoms random⟩

theorem update_replaces_symptoms_only_witness :
    ["Yellow leaves", "Distorted leaves"] ≠ [] ∧
      findOneDiagnosis tomatoStore "diag-1" "user-a" = some tomatoRecord ∧
      ∃ (updated : Diagnosis) (details : Option DiseaseEntry),
        (updateDiagnosisWithSymptoms tomatoStore "diag-1" "user-a"
            (.list ["Yellow leaves", "Distorted leaves"]) (1 / 2)).2 =
          .ok "diag-1" updated details ∧
        (updateDiagnosisWithSymptoms tomatoStore "diag-1" "user-a"
            (.list ["Yellow leaves", "Distorted leaves"]) (1 / 2)).1.diagnoses "diag-1" =
          some updated ∧
        updated.symptoms = ["Yellow leaves", "Distorted leaves"] ∧
        updated.userId = tomatoRecord.userId ∧
        updated.type = tomatoRecord.type ∧
        updated.speciesName = tomatoRecord.speciesName ∧
        updated.imageUrl = tomatoRecord.imageUrl ∧
        updated.temperature = tomatoRecord.temperature ∧
        updated.notes = tomatoRecord.notes ∧
        updated.location = tomatoRecord.location :=
  ⟨by decide, by decide,
    update_replaces_symptoms_only tomatoStore "diag-1" "user-a"
      ["Yellow leaves", "Distorted leaves"] (1 / 2) tomatoRecord (by decide) (by decide)⟩

/-! ## A stored result names an entry of the right table and species -/

theorem possibleDisease_mem (db : Db) (diagnosis : Diagnosis) (symptoms : List String)
    (e : DiseaseEntry) (h : possibleDisease db diagnosis symptoms = some e) :
    e ∈ db.partition diagnosis.type ∧ e.speciesKey = diagnosis.speciesName := by
  unfold possibleDisease at h
  simp only at h
  split at h
  · exact (mem_findAllBySpecies db _ _ e).mp (selectDisease_mem symptoms _ e h)
  · exact Option.noConfusion h

theorem updatedRow_result (db : Db) (found : Diagnosis) (symptoms : List String) (random : ℚ) :
    (updatedRow db found symptoms random).diagnosisResult = found.diagnosisResult ∨
      ∃ e ∈ db.partition found.type, e.speciesKey = found.speciesName ∧
        (updatedRow db found symptoms random).diagnosisResult = some e.name := by
  cases hp : possibleDisease db { found with symptoms := symptoms, status := .pending } symptoms with
  | none =>
    left
    simp [updatedRow, hp, resolve]
  | some e =>
    right
    have hmem := possibleDisease_mem db _ symptoms e hp
    refine ⟨e, hmem.1, hmem.2, ?_⟩
    simp [updatedRow, hp, resolve]

/-- C20: every row found after `submitDiagnosis` either was there unchanged
before the call, or has no `diagnosisResult`, or has as `diagnosisResult` the
name of an entry of the table selected by the row's own type whose species key
equals the row's `speciesName`. Every row found after
`updateDiagnosisWithSymptoms` either was there unchanged, or keeps the type,
`speciesName` and `diagnosisResult` of the row it replaces, or has as
`diagnosisResult` the name of such an entry. -/
theorem result_names_entry_of_type_and_species (db : Db) (k : Uuid) (d : Diagnosis) :
    (∀ (req : SubmitRequest) (newId : Uuid) (r1 r2 : ℚ),
        (submitDiagnosis db req newId r1 r2).1.diagnoses k = some d →
        db.diagnoses k = some d ∨ d.diagnosisResult = none ∨
          ∃ e ∈ db.partition d.type, e.speciesKey = d.speciesName ∧
            d.diagnosisResult = some e.name) ∧
      ∀ (id userId : Uuid) (body : BodyValue) (random : ℚ),
        (updateDiagnosisWithSymptoms db id userId body random).1.diagnoses k = some d →
        db.diagnoses k = some d ∨
          (∃ old : Diagnosis, db.diagnoses k = some old ∧ d.type = old.type ∧
            d.speciesName = old.speciesName ∧ d.diagnosisResult = old.diagnosisResult) ∨
          ∃ e ∈ db.partition d.type, e.speciesKey = d.speciesName ∧
            d.diagnosisResult = some e.name := by
  constructor
  · intro req newId r1 r2 h
    rcases submit_row_cases db req newId r1 r2 k d h with hold | ⟨hres, -, -⟩ | ⟨e, he, hres, -, -⟩
    · exact Or.inl hold
    · exact Or.inr (Or.inl hres)
    · have hmem := (mem_findAllBySpecies db _ _ e).mp he
      exact Or.inr (Or.inr ⟨e, hmem.1, hmem.2, hres⟩)
  · intro id userId body random h
    rcases update_row_cases db id userId body random k d h with hold | ⟨found, hfound, hd⟩
    · exact Or.inl hold
    · have hty := updatedRow_type db found body.toArray random
      rcases updatedRow_result db found body.toArray random with hsame | ⟨e, he, hk, hres⟩
      · refine Or.inr (Or.inl ⟨found, hfound, ?_, ?_, ?_⟩)
        · rw [hd]; exact hty.1
        · rw [hd]; exact hty.2
        · rw [hd]; exact hsame
      · refine Or.inr (Or.inr ⟨e, ?_, ?_, ?_⟩)
        · rw [hd, hty.1]; exact he
        · rw [hd, hty.2]; exact hk
        · rw [hd]; exact hres

theorem result_names_entry_of_type_and_species_witness :
    (submitDiagnosis seedStore tomatoRequest "diag-1" 0 0).1.diagnoses "diag-1" =
        some tomatoRecord ∧
      (seedStore.diagnoses "diag-1" = some tomatoRecord ∨ tomatoRecord.diagnosisResult = none ∨
        ∃ e ∈ seedStore.partition tomatoRecord.type, e.speciesKey = tomatoRecord.speciesName ∧
          tomatoRecord.diagnosisResult = some e.name) ∧
      (updateDiagnosisWithSymptoms tomatoStore "diag-1" "user-a" (.list ["Yellow leaves"])
          (1 / 2)).1.diagnoses "diag-1" =
        some (updatedRow tomatoStore tomatoRecord ["Yellow leaves"] (1 / 2)) ∧
      (updatedRow tomatoStore tomatoRecord ["Yellow leaves"] (1 / 2)).diagnosisResult =
        some "Late Blight" ∧
      (tomatoStore.diagnoses "diag-1" =
          some (updatedRow tomatoStore tomatoRecord ["Yellow leaves"] (1 / 2)) ∨
        (∃ old : Diagnosis, tomatoStore.diagnoses "diag-1" = some old ∧
          (updatedRow tomatoStore tomatoRecord ["Yellow leaves"] (1 / 2)).type = old.type ∧
          (updatedRow tomatoStore tomatoRecord ["Yellow leaves"] (1 / 2)).speciesName =
            old.speciesName ∧
          (updatedRow tomatoStore tomatoRecord ["Yellow leaves"] (1 / 2)).diagnosisResult =
            old.diagnosisResult) ∨
        ∃ e ∈ tomatoStore.partition
            (updatedRow tomatoStore tomatoRecord ["Yellow leaves"] (1 / 2)).type,
          e.speciesKey =
              (updatedRow tomatoStore tomatoRecord ["Yellow leaves"] (1 / 2)).speciesName ∧
            (updatedRow tomatoStore tomatoRecord ["Yellow leaves"] (1 / 2)).diagnosisResult =
              some e.name) := by
  have hsub : (submitDiagnosis seedStore tomatoRequest "diag-1" 0 0).1.diagnoses "diag-1" =
      some tomatoRecord := by decide
  have hupd : (updateDiagnosisWithSymptoms tomatoStore "diag-1" "user-a"
      (.list ["Yellow leaves"]) (1 / 2)).1.diagnoses "diag-1" =
      some (updatedRow tomatoStore tomatoRecord ["Yellow leaves"] (1 / 2)) := by
    rw [update_owned tomatoStore "diag-1" "user-a" ["Yellow leaves"] (1 / 2) tomatoRecord
      (by decide) (by decide)]
    exact diagnoses_put_same _ _ _
  have hcand : findAllBySpecies tomatoStore .plant "tomato" = [lateBlight] := by decide
  refine ⟨hsub,
    (result_names_entry_of_type_and_species seedStore "diag-1" tomatoRecord).1
      tomatoRequest "diag-1" 0 0 hsub,
    hupd, ?_,
    (result_names_entry_of_type_and_species tomatoStore "diag-1"
      (updatedRow tomatoStore tomatoRecord ["Yellow leaves"] (1 / 2))).2
      "diag-1" "user-a" (.list ["Yellow leaves"]) (1 / 2) hupd⟩
  simp [updatedRow, possibleDisease, tomatoRecord, hcand, selectDisease, reduceBest, reducer,
    resolve, lateBlight]


/-! ## Catalog listing: exact species filter and name order -/

theorem unitsLe_total (xs ys : List Nat) : unitsLe xs ys = true ∨ unitsLe ys xs = true := by
  induction xs generalizing ys with
  | nil => exact Or.inl rfl
  | cons a as ih =>
    cases ys with
    | nil => exact Or.inr rfl
    | cons b bs =>
      simp only [unitsLe, Bool.or_eq_true, decide_eq_true_eq, Bool.and_eq_true, beq_iff_eq]
      rcases Nat.lt_trichotomy a b with h | h | h
      · exact Or.inl (Or.inl h)
      · rcases ih bs with h2 | h2
        · exact Or.inl (Or.inr ⟨h, h2⟩)
        · exact Or.inr (Or.inr ⟨h.symm, h2⟩)
      · exact Or.inr (Or.inl h)

theorem unitsLe_trans (xs ys zs : List Nat) (h1 : unitsLe xs ys = true)
    (h2 : unitsLe ys zs = true) : unitsLe xs zs = true := by
  induction xs generalizing ys zs with
  | nil => rfl
  | cons a as ih =>
    cases ys with
    | nil => simp [unitsLe] at h1
    | cons b bs =>
      cases zs with
      | nil => simp [unitsLe] at h2
      | cons c cs =>
        simp only [unitsLe, Bool.or_eq_true, decide_eq_true_eq, Bool.and_eq_true,
          beq_iff_eq] at h1 h2 ⊢
        rcases h1 with h1 | ⟨h1, h1r⟩
        · rcases h2 with h2 | ⟨h2, _⟩
          · exact Or.inl (lt_trans h1 h2)
          · exact Or.inl (h2 ▸ h1)
        · rcases h2 with h2 | ⟨h2, h2r⟩
          · exact Or.inl (h1 ▸ h2)
          · exact Or.inr ⟨h1.trans h2, ih bs cs h1r h2r⟩

theorem lexLe_eq_unitsLe (cs ds : List Char) :
    lexLe cs ds = unitsLe (cs.map Char.toNat) (ds.map Char.toNat) := by
  induction cs generalizing ds with
  | nil => rfl
  | cons a as ih =>
    cases ds with
    | nil => rfl
    | cons b bs => simp [lexLe, unitsLe, ih]

theorem nameLe_total (a b : DiseaseEntry) : nameLe a b ∨ nameLe b a := by
  unfold nameLe
  rw [lexLe_eq_unitsLe, lexLe_eq_unitsLe]
  exact unitsLe_total _ _

theorem nameLe_trans (a b c : DiseaseEntry) (h1 : nameLe a b) (h2 : nameLe b c) :
    nameLe a c := by
  unfold nameLe at h1 h2 ⊢
  rw [lexLe_eq_unitsLe] at h1 h2 ⊢
  exact unitsLe_trans _ _ _ h1 h2

theorem orderByName_sorted (rows : List DiseaseEntry) : (orderByName rows).Sorted nameLe :=
  @List.sorted_insertionSort _ nameLe _ ⟨nameLe_total⟩ ⟨nameLe_trans⟩ rows

theorem orderByName_perm (rows : List DiseaseEntry) : (orderByName rows).Perm rows :=
  List.perm_insertionSort nameLe rows

/-- C21: for a type in {plant, livestock} and a non-empty species string,
`getDiseasesBySpecies` answers 200 with a list that holds exactly the entries
of that table whose species key is the identical string: it is a permutation
of the rows selected by string equality, so an entry is listed if and only if
it is in the table with that species key, as often as it is stored. -/
theorem getDiseasesBySpecies_exact (db : Db) (type : DiagnosisType) (species : String)
    (hspecies : species ≠ "") :
    ∃ listed : List DiseaseEntry,
      getDiseasesBySpecies db (typeName type) species = .ok listed ∧
      listed.Perm ((db.partition type).filter (fun e => decide (e.speciesKey = species))) ∧
      ∀ e : DiseaseEntry, e ∈ listed ↔ e ∈ db.partition type ∧ e.speciesKey = species := by
  refine ⟨orderByName (findAllBySpecies db type species), ?_, ?_, ?_⟩
  · simp [getDiseasesBySpecies, parseType_typeName, hspecies]
  · have h := orderByName_perm (findAllBySpecies db type species)
    unfold findAllBySpecies at h ⊢
    simpa using h
  · intro e
    rw [(orderByName_perm _).mem_iff]
    exact mem_findAllBySpecies db type species e

theorem getDiseasesBySpecies_exact_witness :
    ("tomato" : String) ≠ "" ∧
      getDiseasesBySpecies twoTomatoStore (typeName .plant) "tomato" =
        .ok [earlyBlight, lateBlight] ∧
      getDiseasesBySpecies seedStore (typeName .plant) "Tomato" = .ok [] ∧
      getDiseasesBySpecies seedStore (typeName .plant) "tom" = .ok [] ∧
      ∃ listed : List DiseaseEntry,
        getDiseasesBySpecies seedStore (typeName .plant) "tomato" = .ok listed ∧
        ∀ e : DiseaseEntry, e ∈ listed ↔ e ∈ seedStore.partition .plant ∧ e.speciesKey = "tomato" := by
  obtain ⟨listed, h1, -, h3⟩ := getDiseasesBySpecies_exact seedStore .plant "tomato" (by decide)
  exact ⟨by decide, by decide, by decide, by decide, listed, h1, h3⟩

/-- C22: for a type in {plant, livestock}, `getDiseasesByType` answers 200 with
a list sorted by name in ascending order that is a permutation of the whole
table, and for a non-empty species `getDiseasesBySpecies` answers 200 with a
list sorted by name in ascending order. -/
theorem listings_sorted_by_name (db : Db) (type : DiagnosisType) :
    (∃ listed : List DiseaseEntry,
        getDiseasesByType db (typeName type) = .ok listed ∧
        listed.Sorted nameLe ∧ listed.Perm (db.partition type) ∧
        ∀ e : DiseaseEntry, e ∈ db.partition type → e ∈ listed) ∧
      ∀ species : String, species ≠ "" →
        ∃ listed : List DiseaseEntry,
          getDiseasesBySpecies db (typeName type) species = .ok listed ∧
          listed.Sorted nameLe := by
  constructor
  · refine ⟨orderByName (db.partition type), ?_, orderByName_sorted _, orderByName_perm _, ?_⟩
    · simp [getDiseasesByType, parseType_typeName]
    · intro e he
      exact (orderByName_perm _).mem_iff.mpr he
  · intro species hspecies
    refine ⟨orderByName (findAllBySpecies db type species), ?_, orderByName_sorted _⟩
    simp [getDiseasesBySpecies, parseType_typeName, hspecies]

theorem listings_sorted_by_name_witness :
    ("tomato" : String) ≠ "" ∧
      getDiseasesByType twoTomatoStore (typeName .plant) = .ok [earlyBlight, lateBlight] ∧
      ∃ listed : List DiseaseEntry,
        getDiseasesBySpecies twoTomatoStore (typeName .plant) "tomato" = .ok listed ∧
        listed.Sorted nameLe :=
  ⟨by decide, by decide,
    (listings_sorted_by_name twoTomatoStore .plant).2 "tomato" (by decide)⟩

/-! ## Catalog handlers: rejected requests -/

/-- C23: for every type string, valid or not, and every query whose length
(`query.length`, in UTF-16 code units) is below 2, `searchDiseases` answers 400
with 'Search query must be at least 2 characters', the same for every catalog:
the length check comes before the type check and before any query. -/
theorem searchDiseases_short_query (db : Db) (type query : String)
    (hshort : (codeUnits query).length < 2) :
    searchDiseases db type query =
        .badRequest "Search query must be at least 2 characters" ∧
      ∀ other : Db, searchDiseases other type query = searchDiseases db type query := by
  have h : ∀ d : Db, searchDiseases d type query =
      .badRequest "Search query must be at least 2 characters" := by
    intro d
    simp [searchDiseases, hshort]
  exact ⟨h db, fun other => (h other).trans (h db).symm⟩

theorem searchDiseases_short_query_witness :
    (codeUnits "a").length < 2 ∧
      searchDiseases seedStore "vegetable" "a" =
        .badRequest "Search query must be at least 2 characters" ∧
      ∀ other : Db, searchDiseases other "vegetable" "a" =
        searchDiseases seedStore "vegetable" "a" :=
  ⟨by decide, searchDiseases_short_query seedStore "vegetable" "a" (by decide)⟩

theorem parseType_eq_none (type : String) (hplant : type ≠ "plant")
    (hlivestock : type ≠ "livestock") : parseType type = none := by
  simp [parseType, hplant, hlivestock]

/-- C28, refuted: "pd-9" is the id of no plant entry and the type is valid, yet
`getDiseaseById` answers 500, not 404, because the text is no `uuid` and the
query throws. -/
theorem malformed_id_is_server_error :
    parseType "plant" = some .plant ∧
      (∀ e ∈ seedStore.partition .plant, e.id ≠ "pd-9") ∧
      getDiseaseById seedStore "plant" "pd-9" =
        .serverError "Error fetching disease"
          "invalid input syntax for type uuid: \"pd-9\"" ∧
      getDiseaseById seedStore "plant" "pd-9" ≠ .notFound "Disease not found" := by
  decide

/-- C28 (as amended): for every type string other than "plant" and "livestock",
`getDiseasesByType`, `getDiseasesBySpecies`, `getDiseaseById` and
`getSymptomsList` answer 400 with the invalid-type message, whatever the
catalog holds and whatever the id is. With a valid type, `getDiseaseById`
answers 404 for an id in `uuid` syntax that is the key of no entry of that
table, and 500 for an id that is not in `uuid` syntax. -/
theorem catalog_invalid_type_and_unknown_id (db : Db) :
    (∀ (type species : String) (id : String), type ≠ "plant" → type ≠ "livestock" →
        getDiseasesByType db type =
          .badRequest "Invalid type. Must be \"plant\" or \"livestock\"" ∧
        getDiseasesBySpecies db type species =
          .badRequest "Invalid type. Must be \"plant\" or \"livestock\"" ∧
        getDiseaseById db type id =
          .badRequest "Invalid type. Must be \"plant\" or \"livestock\"" ∧
        getSymptomsList db type =
          .badRequest "Invalid type. Must be \"plant\" or \"livestock\"") ∧
      (∀ (type : DiagnosisType) (id : String) (key : List Char), parseUuid id = some key →
        (∀ e ∈ db.partition type, parseUuid e.id ≠ some key) →
        getDiseaseById db (typeName type) id = .notFound "Disease not found") ∧
      ∀ (type : DiagnosisType) (id : String), parseUuid id = none →
        getDiseaseById db (typeName type) id =
          .serverError "Error fetching disease"
            ("invalid input syntax for type uuid: \"" ++ id ++ "\"") := by
  refine ⟨?_, ?_, ?_⟩
  · intro type species id hplant hlivestock
    have hnone := parseType_eq_none type hplant hlivestock
    simp [getDiseasesByType, getDiseasesBySpecies, getDiseaseById, getSymptomsList, hnone,
      invalidTypeMessage]
  · intro type id key hkey hid
    have hfind : (db.partition type).find? (fun e => parseUuid e.id == some key) = none := by
      rw [List.find?_eq_none]
      intro e he
      simpa using hid e he
    simp [getDiseaseById, parseType_typeName, hkey, hfind]
  · intro type id hbad
    simp [getDiseaseById, parseType_typeName, hbad]

theorem catalog_invalid_type_and_unknown_id_witness :
    "Plant" ≠ "plant" ∧ "Plant" ≠ "livestock" ∧
      parseUuid "6F1D2C3A-0000-4000-8000-000000000009" =
        some "6f1d2c3a000040008000000000000009".data ∧
      (∀ e ∈ seedStore.partition .plant,
        parseUuid e.id ≠ some "6f1d2c3a000040008000000000000009".data) ∧
      parseUuid "123" = none ∧
      getDiseasesByType seedStore "Plant" =
        .badRequest "Invalid type. Must be \"plant\" or \"livestock\"" ∧
      getDiseaseById seedStore "Plant" "123" =
        .badRequest "Invalid type. Must be \"plant\" or \"livestock\"" ∧
      getDiseaseById seedStore (typeName .plant) "6F1D2C3A-0000-4000-8000-000000000009" =
        .notFound "Disease not found" ∧
      getDiseaseById seedStore (typeName .plant) "123" =
        .serverError "Error fetching disease"
          ("invalid input syntax for type uuid: \"" ++ "123" ++ "\"") ∧
      getDiseaseById seedStore "plant" "{6F1D2C3A00004000-8000-000000000001}" =
        .disease lateBlight :=
  ⟨by decide, by decide, by decide, by decide, by decide,
    ((catalog_invalid_type_and_unknown_id seedStore).1 "Plant" "tomato" "123"
      (by decide) (by decide)).1,
    ((catalog_invalid_type_and_unknown_id seedStore).1 "Plant" "tomato" "123"
      (by decide) (by decide)).2.2.1,
    (catalog_invalid_type_and_unknown_id seedStore).2.1 .plant
      "6F1D2C3A-0000-4000-8000-000000000009" "6f1d2c3a000040008000000000000009".data
      (by decide) (by decide),
    (catalog_invalid_type_and_unknown_id seedStore).2.2 .plant "123" (by decide),
    by decide⟩

/-! ## A failed upload -/

/-- A submission with an image whose upload is refused by S3. -/
theorem submit_upload_failure (db : Db) (req : SubmitRequest) (newId : Uuid) (r1 r2 : ℚ)
    (type : DiagnosisType) (species message : String)
    (htype : req.type = some (typeName type)) (hspecies : req.speciesName = some species)
    (hne : species ≠ "") (hsymptoms : req.symptoms.falsy = false)
    (hfile : req.file = some (.failed message)) :
    submitDiagnosis db req newId r1 r2 =
      (db.logUpload req.file, .serverError "Error uploading image" message) := by
  have hsp : truthy (some species) = true := by simp [truthy, hne]
  have hupload : uploadImage req.file = .error message := by rw [hfile]; rfl
  unfold submitDiagnosis
  rw [htype, hspecies, truthy_typeName, hsp, hsymptoms, parseType_getD_typeName, hupload]
  simp

/-- C27, evaluated: when S3 refuses the image with the message "Access Denied",
`submitDiagnosis` answers 500 with that message in the body. The handler has
no input for the server mode, so the body is the same in production, where the
global error handler would answer "Something went wrong". The failed call is
logged and no diagnosis row is written. -/
theorem upload_failure_discloses_message (r1 r2 : ℚ) :
    failedUploadRequest.file = some (.failed "Access Denied") ∧
      (submitDiagnosis seedStore failedUploadRequest "diag-1" r1 r2).2 =
        .serverError "Error uploading image" "Access Denied" ∧
      (submitDiagnosis seedStore failedUploadRequest "diag-1" r1 r2).1.diagnoses =
        seedStore.diagnoses ∧
      (submitDiagnosis seedStore failedUploadRequest "diag-1" r1 r2).1.uploads =
        [.failed "Access Denied"] ∧
      globalErrorHandler true "Access Denied" =
        .serverError "Internal server error" "Something went wrong" ∧
      globalErrorHandler false "Access Denied" =
        .serverError "Internal server error" "Access Denied" := by
  rw [submit_upload_failure seedStore failedUploadRequest "diag-1" r1 r2 .plant "tomato"
    "Access Denied" (by decide) (by decide) (by decide) (by decide) (by decide)]
  exact ⟨rfl, rfl, rfl, rfl, rfl, rfl⟩

/-! ## The list of distinct symptoms -/

theorem mem_uniqueInOrder (xs : List String) (s : String) : s ∈ uniqueInOrder xs ↔ s ∈ xs := by
  induction xs with
  | nil => simp [uniqueInOrder]
  | cons x xs ih =>
    simp only [uniqueInOrder, List.mem_cons, List.mem_filter, ih]
    constructor
    · rintro (h | ⟨h, _⟩)
      · exact Or.inl h
      · exact Or.inr h
    · rintro (h | h)
      · exact Or.inl h
      · by_cases hs : s = x
        · exact Or.inl hs
        · exact Or.inr ⟨h, by simpa using hs⟩

theorem uniqueInOrder_nodup (xs : List String) : (uniqueInOrder xs).Nodup := by
  induction xs with
  | nil => simp [uniqueInOrder]
  | cons x xs ih =>
    simp only [uniqueInOrder, List.nodup_cons]
    refine ⟨?_, ih.filter _⟩
    simp [List.mem_filter]

theorem jsStringLe_total (a b : String) : jsStringLe a b ∨ jsStringLe b a :=
  unitsLe_total _ _

theorem jsStringLe_trans (a b c : String) (h1 : jsStringLe a b) (h2 : jsStringLe b c) :
    jsStringLe a c :=
  unitsLe_trans _ _ _ h1 h2

/-- C25: for every catalog and every type in {plant, livestock},
`getSymptomsList` answers 200 with a list that has no string twice, is sorted
ascending in the order of `Array.prototype.sort()`, contains a string if and
only if it is non-empty and a symptom of some entry of that table, and with a
count equal to the length of the list. -/
theorem getSymptomsList_distinct_sorted (db : Db) (type : DiagnosisType) :
    ∃ listed : List String,
      getSymptomsList db (typeName type) = .symptoms listed listed.length ∧
      listed.Nodup ∧ listed.Sorted jsStringLe ∧
      ∀ s : String, s ∈ listed ↔ s ≠ "" ∧ ∃ e ∈ db.partition type, s ∈ e.symptoms := by
  refine ⟨(uniqueInOrder (((db.partition type).flatMap (fun disease => disease.symptoms)).filter
    (fun symptom => symptom != ""))).insertionSort jsStringLe, ?_, ?_, ?_, ?_⟩
  · simp [getSymptomsList, parseType_typeName]
  · exact (List.perm_insertionSort jsStringLe _).nodup_iff.mpr (uniqueInOrder_nodup _)
  · exact @List.sorted_insertionSort _ jsStringLe _ ⟨jsStringLe_total⟩ ⟨jsStringLe_trans⟩ _
  · intro s
    rw [(List.perm_insertionSort jsStringLe _).mem_iff, mem_uniqueInOrder]
    simp only [List.mem_filter, List.mem_flatMap, bne_iff_ne, ne_eq]
    constructor
    · rintro ⟨h, hs⟩
      exact ⟨hs, h⟩
    · rintro ⟨hs, h⟩
      exact ⟨h, hs⟩

/-- The scenario of the spec: a symptom shared by two entries is listed once. -/
theorem getSymptomsList_overlap_example :
    getSymptomsList twoTomatoStore "plant" =
      .symptoms
        [ "Brown lesions on stems"
        , "Dark brown spots on leaves"
        , "Fruit rot with greasy appearance"
        , "White fungal growth on undersides of leaves"
        , "Yellow leaves" ] 5 := by
  decide

/-! ## The detail lookup -/

theorem possibleDisease_pending (db : Db) (found : Diagnosis) (symptoms : List String) :
    possibleDisease db { found with symptoms := symptoms, status := .pending } symptoms =
      possibleDisease db found symptoms := rfl

theorem findOneByName_put (db : Db) (id : Uuid) (d : Diagnosis) (type : DiagnosisType)
    (name : String) : findOneByName (db.put id d) type name = findOneByName db type name := by
  unfold findOneByName
  rw [partition_put]

theorem findOneByName_first (db : Db) (type : DiagnosisType) (e : DiseaseEntry)
    (he : e ∈ db.partition type) :
    ∃ first : DiseaseEntry, findOneByName db type e.name = some first ∧
      first ∈ db.partition type ∧ first.name = e.name ∧
      ((∀ x ∈ db.partition type, x.name = e.name → x = e) → first = e) := by
  unfold findOneByName
  cases hfind : (db.partition type).find? (fun x => x.name == e.name) with
  | none =>
    have := List.find?_eq_none.mp hfind e he
    simp at this
  | some first =>
    have hmem : first ∈ db.partition type := List.mem_of_find?_eq_some hfind
    have hname : first.name = e.name := by simpa using List.find?_some hfind
    exact ⟨first, rfl, hmem, hname, fun huniq => huniq first hmem hname⟩

theorem resultNamesEntry_of_partition (db1 db2 : Db) (d : Diagnosis)
    (hpart : ∀ type, db1.partition type = db2.partition type)
    (h : resultNamesEntry db2 d) : resultNamesEntry db1 d := by
  unfold resultNamesEntry at h ⊢
  rw [hpart]
  exact h

/-- In a reachable store every present result was written by a match: it names
an entry of the row's table and species. -/
theorem reachable_resultNamesEntry (db : Db) (h : Reachable db) :
    ∀ k d, db.diagnoses k = some d → resultNamesEntry db d := by
  induction h with
  | init p l =>
    intro k d hk
    simp at hk
  | @submit db0 _ req newId r1 r2 ih =>
    intro k d hk
    apply resultNamesEntry_of_partition _ db0 d
      (fun type => partition_submitDiagnosis db0 req newId r1 r2 type)
    rcases submit_row_cases db0 req newId r1 r2 k d hk with hold | ⟨hres, -, -⟩ | ⟨e, he, hres, -, -⟩
    · exact ih k d hold
    · intro n hn
      rw [hres] at hn
      exact Option.noConfusion hn
    · intro n hn
      rw [hres] at hn
      have hmem := (mem_findAllBySpecies db0 _ _ e).mp he
      exact ⟨e, hmem.1, hmem.2, Option.some.inj hn⟩
  | @update db0 _ id userId body random ih =>
    intro k d hk
    apply resultNamesEntry_of_partition _ db0 d
      (fun type => partition_updateDiagnosisWithSymptoms db0 id userId body random type)
    rcases update_row_cases db0 id userId body random k d hk with hold | ⟨found, hfound, hd⟩
    · exact ih k d hold
    · have hty := updatedRow_type db0 found body.toArray random
      intro n hn
      rw [hd] at hn ⊢
      rw [hty.1, hty.2]
      rcases updatedRow_result db0 found body.toArray random with hsame | ⟨e, he, hk2, hres⟩
      · rw [hsame] at hn
        exact ih k found hfound n hn
      · rw [hres] at hn
        exact ⟨e, he, hk2, Option.some.inj hn⟩

/-- The answer of the symptom update is the answer `getDiagnosisById` gives on
the state the update leaves. -/
theorem update_response_eq_getDiagnosisById (db : Db) (id userId : Uuid)
    (symptoms : List String) (random : ℚ) (found : Diagnosis) (hs : symptoms ≠ [])
    (hfound : findOneDiagnosis db id userId = some found) :
    (updateDiagnosisWithSymptoms db id userId (.list symptoms) random).2 =
      getDiagnosisById (updateDiagnosisWithSymptoms db id userId (.list symptoms) random).1
        id userId := by
  have hown := (findOneDiagnosis_some db id userId found hfound).2
  have hstored : findOneDiagnosis
      ((db.put id { found with symptoms := symptoms, status := .pending }).put id
        (updatedRow db found symptoms random)) id userId =
      some (updatedRow db found symptoms random) :=
    findOneDiagnosis_put _ _ _ _ (by rw [updatedRow_userId]; exact hown)
  rw [update_owned db id userId symptoms random found hs hfound]
  simp only [getDiagnosisById, hstored]

/-- C26, refuted: with a potato entry named "Late Blight" stored before the
tomato entry of the same name, the tomato diagnosis is matched to the tomato
entry, but the update and `getDiagnosisById` both return the potato entry as
`diseaseDetails`; and with a matched entry whose name is the empty string they
return no `diseaseDetails` at all. -/
theorem details_of_other_species :
    possibleDisease sameNameStore tomatoRecord ["Brown lesions on stems"] = some lateBlight ∧
      (∀ random : ℚ, ∃ updated : Diagnosis,
        (updateDiagnosisWithSymptoms sameNameStore "diag-1" "user-a"
            (.list ["Brown lesions on stems"]) random).2 =
          .ok "diag-1" updated (some potatoLateBlight) ∧
        getDiagnosisById
            (updateDiagnosisWithSymptoms sameNameStore "diag-1" "user-a"
              (.list ["Brown lesions on stems"]) random).1 "diag-1" "user-a" =
          .ok "diag-1" updated (some potatoLateBlight) ∧
        updated.diagnosisResult = some "Late Blight" ∧ updated.speciesName = "tomato") ∧
      potatoLateBlight.speciesKey = "potato" ∧ potatoLateBlight ≠ lateBlight ∧
      possibleDisease unnamedStore tomatoRecord ["Brown lesions on stems"] = some unnamedEntry ∧
      ∀ random : ℚ, ∃ updated : Diagnosis,
        getDiagnosisById
            (updateDiagnosisWithSymptoms unnamedStore "diag-1" "user-a"
              (.list ["Brown lesions on stems"]) random).1 "diag-1" "user-a" =
          .ok "diag-1" updated none ∧
        updated.diagnosisResult = some "" ∧ updated.status = .completed := by
  have hfound : findOneDiagnosis sameNameStore "diag-1" "user-a" = some tomatoRecord := by
    decide
  have hmatch : possibleDisease sameNameStore tomatoRecord ["Brown lesions on stems"] =
      some lateBlight := by decide
  have hfoundU : findOneDiagnosis unnamedStore "diag-1" "user-a" = some tomatoRecord := by
    decide
  have hmatchU : possibleDisease unnamedStore tomatoRecord ["Brown lesions on stems"] =
      some unnamedEntry := by decide
  refine ⟨hmatch, ?_, by decide, by decide, hmatchU, ?_⟩
  · intro random
    have hrow : updatedRow sameNameStore tomatoRecord ["Brown lesions on stems"] random =
        { tomatoRecord with
          symptoms := ["Brown lesions on stems"]
          diagnosisResult := some "Late Blight"
          confidence := some (symptomConfidence random)
          status := .completed } := by
      unfold updatedRow
      rw [possibleDisease_pending, hmatch]
      rfl
    have hdetails : ∀ db : Db, db.partition .plant = sameNameStore.partition .plant →
        diseaseDetails db
            (updatedRow sameNameStore tomatoRecord ["Brown lesions on stems"] random) =
          some potatoLateBlight := by
      intro db hpart
      rw [hrow]
      have hfind : findOneByName db .plant "Late Blight" = some potatoLateBlight := by
        unfold findOneByName
        rw [hpart]
        decide
      simpa [diseaseDetails, truthy, tomatoRecord] using hfind
    have hresp : (updateDiagnosisWithSymptoms sameNameStore "diag-1" "user-a"
        (.list ["Brown lesions on stems"]) random).2 =
        .ok "diag-1" (updatedRow sameNameStore tomatoRecord ["Brown lesions on stems"] random)
          (some potatoLateBlight) := by
      rw [update_owned sameNameStore "diag-1" "user-a" ["Brown lesions on stems"] random
        tomatoRecord (by decide) hfound]
      simp only
      rw [hdetails _ (by rw [partition_put, partition_put])]
    refine ⟨updatedRow sameNameStore tomatoRecord ["Brown lesions on stems"] random,
      hresp, ?_, ?_, ?_⟩
    · rw [← update_response_eq_getDiagnosisById sameNameStore "diag-1" "user-a"
        ["Brown lesions on stems"] random tomatoRecord (by decide) hfound]
      exact hresp
    · rw [hrow]
    · rw [hrow]
      rfl
  · intro random
    have hrow : updatedRow unnamedStore tomatoRecord ["Brown lesions on stems"] random =
        { tomatoRecord with
          symptoms := ["Brown lesions on stems"]
          diagnosisResult := some ""
          confidence := some (symptomConfidence random)
          status := .completed } := by
      unfold updatedRow
      rw [possibleDisease_pending, hmatchU]
      rfl
    have hresp : (updateDiagnosisWithSymptoms unnamedStore "diag-1" "user-a"
        (.list ["Brown lesions on stems"]) random).2 =
        .ok "diag-1" (updatedRow unnamedStore tomatoRecord ["Brown lesions on stems"] random)
          none := by
      rw [update_owned unnamedStore "diag-1" "user-a" ["Brown lesions on stems"] random
        tomatoRecord (by decide) hfoundU]
      simp only
      rw [hrow]
      simp [diseaseDetails, truthy]
    refine ⟨updatedRow unnamedStore tomatoRecord ["Brown lesions on stems"] random, ?_, ?_, ?_⟩
    · rw [← update_response_eq_getDiagnosisById unnamedStore "diag-1" "user-a"
        ["Brown lesions on stems"] random tomatoRecord (by decide) hfoundU]
      exact hresp
    · rw [hrow]
    · rw [hrow]

/-- C26 (as amended): for every owned diagnosis record, `getDiagnosisById`
answers 200 with the record and returns `diseaseDetails = null` when
`diagnosisResult` is absent or the empty string. For a non-empty
`diagnosisResult` it returns the first entry, in storage order, of the table of
the record's type whose name equals `diagnosisResult`: if an entry of that
table has that name, `diseaseDetails` is an entry of the same table with the
same name, and it is that very entry when no other entry of the table has the
name. In a store reachable by `submitDiagnosis` and
`updateDiagnosisWithSymptoms` calls a present `diagnosisResult` was written by
a match of either handler and is the name of an entry of the record's table
with the record's species key. The symptom update returns the same
`diseaseDetails` as `getDiagnosisById` on the state it leaves. -/
theorem details_are_first_entry_with_name (db : Db) (id userId : Uuid) (d : Diagnosis)
    (hfound : findOneDiagnosis db id userId = some d) :
    ∃ details : Option DiseaseEntry,
      getDiagnosisById db id userId = .ok id d details ∧
      (d.diagnosisResult = none → details = none) ∧
      (d.diagnosisResult = some "" → details = none) ∧
      (∀ n : String, d.diagnosisResult = some n → n ≠ "" →
        details = (db.partition d.type).find? (fun x => x.name == n) ∧
        ∀ e ∈ db.partition d.type, e.name = n →
          ∃ first : DiseaseEntry, details = some first ∧ first ∈ db.partition d.type ∧
            first.name = n ∧
            ((∀ x ∈ db.partition d.type, x.name = n → x = e) → first = e)) ∧
      (Reachable db → ∀ n : String, d.diagnosisResult = some n →
        ∃ e ∈ db.partition d.type, e.speciesKey = d.speciesName ∧ e.name = n) ∧
      ∀ (symptoms : List String) (random : ℚ), symptoms ≠ [] →
        (updateDiagnosisWithSymptoms db id userId (.list symptoms) random).2 =
          getDiagnosisById (updateDiagnosisWithSymptoms db id userId (.list symptoms) random).1
            id userId := by
  refine ⟨diseaseDetails db d, ?_, ?_, ?_, ?_, ?_, ?_⟩
  · simp [getDiagnosisById, hfound]
  · intro hnone
    simp [diseaseDetails, hnone, truthy]
  · intro hempty
    simp [diseaseDetails, hempty, truthy]
  · intro n hn hne
    have hdet : diseaseDetails db d = (db.partition d.type).find? (fun x => x.name == n) := by
      simp [diseaseDetails, hn, truthy, hne, findOneByName]
    refine ⟨hdet, ?_⟩
    intro e he hname
    obtain ⟨first, hfirst, hfmem, hfname, huniq⟩ := findOneByName_first db d.type e he
    rw [hname] at hfirst hfname huniq
    unfold findOneByName at hfirst
    exact ⟨first, hdet.trans hfirst, hfmem, hfname, huniq⟩
  · intro hreach n hn
    exact reachable_resultNamesEntry db hreach id d (findOneDiagnosis_some db id userId d hfound).1
      n hn
  · intro symptoms random hs
    exact update_response_eq_getDiagnosisById db id userId symptoms random d hs hfound

/-- The row the image path stores for `tomatoImageRequest` on the seeded
catalog. -/
theorem imageSubmission_row :
    findOneDiagnosis (submitDiagnosis seedStore tomatoImageRequest "diag-3" (1 / 2) (1 / 2)).1
        "diag-3" "user-a" =
      some
        { createdRow tomatoImageRequest .plant
            (some "https://agrihealth.s3.amazonaws.com/diagnoses/1-image.jpg") with
          diagnosisResult := some "Late Blight"
          confidence := some (imageConfidence (1 / 2))
          status := .completed } := by
  have hvalid := submit_valid seedStore tomatoImageRequest "diag-3" (1 / 2) (1 / 2) .plant
    "tomato" (some "https://agrihealth.s3.amazonaws.com/diagnoses/1-image.jpg")
    (by decide) (by decide) (by decide) (by decide) rfl (by decide)
  have hcands : findAllBySpecies
      ((seedStore.logUpload tomatoImageRequest.file).put "diag-3"
        (createdRow tomatoImageRequest .plant
          (some "https://agrihealth.s3.amazonaws.com/diagnoses/1-image.jpg")))
      (createdRow tomatoImageRequest .plant
        (some "https://agrihealth.s3.amazonaws.com/diagnoses/1-image.jpg")).type
      (createdRow tomatoImageRequest .plant
        (some "https://agrihealth.s3.amazonaws.com/diagnoses/1-image.jpg")).speciesName =
      [lateBlight] := by decide
  obtain ⟨e, he, hpick⟩ := pickRandom_some [lateBlight] (1 / 2) (by simp) (by norm_num)
    (by norm_num)
  have hel : e = lateBlight := List.mem_singleton.mp he
  rw [hel] at hpick
  have hproc := (processImage_with_image
    ((seedStore.logUpload tomatoImageRequest.file).put "diag-3"
      (createdRow tomatoImageRequest .plant
        (some "https://agrihealth.s3.amazonaws.com/diagnoses/1-image.jpg")))
    "diag-3"
    (createdRow tomatoImageRequest .plant
      (some "https://agrihealth.s3.amazonaws.com/diagnoses/1-image.jpg"))
    (1 / 2) (1 / 2) (by decide)).2 lateBlight (by rw [hcands]; exact hpick)
    (by rw [hcands]; simp)
  rw [hvalid]
  simp only
  rw [hproc]
  exact findOneDiagnosis_put _ _ _ _ rfl

theorem details_are_first_entry_with_name_witness :
    findOneDiagnosis tomatoStore "diag-1" "user-a" = some tomatoRecord ∧
      tomatoRecord.diagnosisResult = none ∧
      getDiagnosisById tomatoStore "diag-1" "user-a" = .ok "diag-1" tomatoRecord none ∧
      Reachable (submitDiagnosis seedStore tomatoImageRequest "diag-3" (1 / 2) (1 / 2)).1 ∧
      (∃ d : Diagnosis,
        findOneDiagnosis (submitDiagnosis seedStore tomatoImageRequest "diag-3" (1 / 2) (1 / 2)).1
          "diag-3" "user-a" = some d ∧
        d.status = .completed ∧ d.diagnosisResult = some "Late Blight" ∧
        getDiagnosisById (submitDiagnosis seedStore tomatoImageRequest "diag-3" (1 / 2) (1 / 2)).1
          "diag-3" "user-a" = .ok "diag-3" d (some lateBlight) ∧
        ∃ e ∈ (submitDiagnosis seedStore tomatoImageRequest "diag-3" (1 / 2) (1 / 2)).1.partition
            d.type,
          e.speciesKey = d.speciesName ∧ e.name = "Late Blight") ∧
      (updateDiagnosisWithSymptoms tomatoStore "diag-1" "user-a"
          (.list ["Brown lesions on stems"]) (1 / 2)).2 =
        getDiagnosisById
          (updateDiagnosisWithSymptoms tomatoStore "diag-1" "user-a"
            (.list ["Brown lesions on stems"]) (1 / 2)).1 "diag-1" "user-a" := by
  have hfound : findOneDiagnosis tomatoStore "diag-1" "user-a" = some tomatoRecord := by decide
  have hreach : Reachable
      (submitDiagnosis seedStore tomatoImageRequest "diag-3" (1 / 2) (1 / 2)).1 :=
    Reachable.submit (Reachable.init [lateBlight, powderyMildew] []) tomatoImageRequest "diag-3"
      (1 / 2) (1 / 2)
  obtain ⟨details0, hget0, hnone0, -, -, -, hupd0⟩ :=
    details_are_first_entry_with_name tomatoStore "diag-1" "user-a" tomatoRecord hfound
  rw [hnone0 (by decide)] at hget0
  obtain ⟨details, hget, -, -, hname, hentry, -⟩ :=
    details_are_first_entry_with_name
      (submitDiagnosis seedStore tomatoImageRequest "diag-3" (1 / 2) (1 / 2)).1 "diag-3" "user-a"
      _ imageSubmission_row
  have hpart : (submitDiagnosis seedStore tomatoImageRequest "diag-3" (1 / 2) (1 / 2)).1.partition
      .plant = [lateBlight, powderyMildew] :=
    partition_submitDiagnosis seedStore tomatoImageRequest "diag-3" (1 / 2) (1 / 2) .plant
  have hmem : lateBlight ∈
      (submitDiagnosis seedStore tomatoImageRequest "diag-3" (1 / 2) (1 / 2)).1.partition
        .plant := by
    rw [hpart]
    decide
  have honly : ∀ x ∈
      (submitDiagnosis seedStore tomatoImageRequest "diag-3" (1 / 2) (1 / 2)).1.partition .plant,
      x.name = "Late Blight" → x = lateBlight := by
    rw [hpart]
    decide
  obtain ⟨first, hfirst, -, -, huniq⟩ :=
    (hname "Late Blight" rfl (by decide)).2 lateBlight hmem rfl
  have hfl : first = lateBlight := huniq honly
  rw [hfirst, hfl] at hget
  exact ⟨hfound, by decide, hget0, hreach, ⟨_, imageSubmission_row, rfl, rfl, hget,
    hentry hreach "Late Blight" rfl⟩, hupd0 ["Brown lesions on stems"] (1 / 2) (by decide)⟩

/-! ## Stability of the selection -/

theorem matchCount_append_bounds (symptoms : List String) (c : DiseaseEntry) (s : String) :
    matchCount symptoms c ≤ matchCount (symptoms ++ [s]) c ∧
      matchCount (symptoms ++ [s]) c ≤ matchCount symptoms c + 1 := by
  rw [matchCount_append_singleton]
  split <;> omega

/-- C29: for a candidate list on which the scorer selects a disease and a
symptom `s` of that disease, the scorer run on the observed list with `s`
appended selects the same disease, also when `s` belongs to other candidates. -/
theorem selection_stable_under_winner_symptom (symptoms : List String)
    (diseases : List DiseaseEntry) (best : DiseaseEntry) (s : String)
    (hbest : selectDisease symptoms diseases = some best) (hs : s ∈ best.symptoms) :
    selectDisease (symptoms ++ [s]) diseases = some best := by
  have hne : diseases ≠ [] := List.ne_nil_of_mem (selectDisease_mem symptoms diseases best hbest)
  obtain ⟨i, d, hi, hred, hmax, hfirst⟩ := reduceBest_first_max symptoms diseases hne
  obtain ⟨j, d2, hj, hred2, hmax2, hfirst2⟩ :=
    reduceBest_first_max (symptoms ++ [s]) diseases hne
  have hd : d = best := by
    simpa [selectDisease, hred] using hbest
  subst hd
  have hwin : matchCount (symptoms ++ [s]) d = matchCount symptoms d + 1 := by
    rw [matchCount_append_singleton, if_pos hs]
  have hd2 := matchCount_append_bounds symptoms d2 s
  have hij : j = i := by
    rcases Nat.lt_trichotomy j i with hlt | heq | hgt
    · have h1 := hfirst j d2 hlt hj
      have h2 := hmax2 d (List.getElem?_mem hi)
      omega
    · exact heq
    · have h1 := hfirst2 i d hgt hi
      have h2 := hmax d2 (List.getElem?_mem hj)
      omega
  subst hij
  rw [hi] at hj
  have hsame : d = d2 := Option.some.inj hj
  subst hsame
  simp [selectDisease, hred2]

theorem selection_stable_under_winner_symptom_witness :
    selectDisease ["Dark brown spots on leaves"] [lateBlight, earlyBlight] = some lateBlight ∧
      "Dark brown spots on leaves" ∈ lateBlight.symptoms ∧
      "Dark brown spots on leaves" ∈ earlyBlight.symptoms ∧
      selectDisease (["Dark brown spots on leaves"] ++ ["Dark brown spots on leaves"])
          [lateBlight, earlyBlight] = some lateBlight :=
  ⟨by decide, by decide, by decide,
    selection_stable_under_winner_symptom ["Dark brown spots on leaves"]
      [lateBlight, earlyBlight] lateBlight "Dark brown spots on leaves" (by decide) (by decide)⟩

/-! ## Plant.id response processing -/

theorem probabilityGe_total (a b : PlantIdDisease) : probabilityGe a b ∨ probabilityGe b a := by
  unfold probabilityGe
  exact le_total _ _

theorem probabilityGe_trans (a b c : PlantIdDisease) (h1 : probabilityGe a b)
    (h2 : probabilityGe b c) : probabilityGe a c := by
  unfold probabilityGe at h1 h2 ⊢
  exact le_trans h2 h1

theorem sortedByProbability (input : List PlantIdDisease) :
    (input.insertionSort probabilityGe).Sorted probabilityGe :=
  @List.sorted_insertionSort _ probabilityGe _ ⟨probabilityGe_total⟩ ⟨probabilityGe_trans⟩ input

/-- What `processDiseaseResponse` returns once the sorted list is known to
start with `top`. -/
theorem processDiseaseResponse_of_sorted (response : PlantIdResponse)
    (input rest : List PlantIdDisease) (top : PlantIdDisease)
    (hresponse : response.healthAssessment = some (some input))
    (hsorted : input.insertionSort probabilityGe = top :: rest) :
    processDiseaseResponse response =
      { isHealthy := decide (top.probability < 0.15)
        diseases := (top :: rest).map formatDisease
        suggestions :=
          if decide (top.probability < 0.15) = true then healthyMessage
          else "Possible " ++ top.name ++ " detected. Follow treatment recommendations." } := by
  have hlen : input.length ≠ 0 := by
    intro h
    have := congrArg List.length hsorted
    rw [List.length_insertionSort, h] at this
    simp at this
  unfold processDiseaseResponse
  rw [hresponse]
  simp only [hlen, if_false, hsorted, List.map_cons]
  rfl

/-- C30: when `health_assessment` or its disease list is missing or empty,
`processDiseaseResponse` returns `isHealthy = true` with an empty disease list.
Otherwise the returned diseases are the input diseases, each formatted, in an
order that is a permutation of the input sorted by descending probability;
`isHealthy` is true if and only if the greatest probability is below 0.15; and
when `isHealthy` is false the suggestion names the disease with the greatest
probability. -/
theorem processDiseaseResponse_sorts_and_thresholds (response : PlantIdResponse) :
    ((response.healthAssessment = none ∨ response.healthAssessment = some none ∨
          response.healthAssessment = some (some [])) →
        processDiseaseResponse response =
          { isHealthy := true, diseases := [], suggestions := healthyMessage }) ∧
      ∀ input : List PlantIdDisease, input ≠ [] →
        response.healthAssessment = some (some input) →
        ∃ (sorted : List PlantIdDisease) (top : PlantIdDisease),
          sorted.Perm input ∧ sorted.Sorted probabilityGe ∧ sorted.head? = some top ∧
          top ∈ input ∧ (∀ d ∈ input, d.probability ≤ top.probability) ∧
          (processDiseaseResponse response).diseases = sorted.map formatDisease ∧
          ((processDiseaseResponse response).isHealthy = true ↔ top.probability < 0.15) ∧
          ((processDiseaseResponse response).isHealthy = false →
            (processDiseaseResponse response).suggestions =
              "Possible " ++ top.name ++ " detected. Follow treatment recommendations.") := by
  constructor
  · rintro (h | h | h) <;> simp [processDiseaseResponse, h]
  · intro input hne hresponse
    have hperm := List.perm_insertionSort probabilityGe input
    have hsorted := sortedByProbability input
    cases hs : input.insertionSort probabilityGe with
    | nil =>
      have := hperm.length_eq
      rw [hs] at this
      exact absurd (List.length_eq_zero.mp this.symm) hne
    | cons top rest =>
      rw [hs] at hperm hsorted
      have htop : top ∈ input := hperm.mem_iff.mp (List.mem_cons_self _ _)
      have hmax : ∀ d ∈ input, d.probability ≤ top.probability := by
        intro d hd
        rcases List.mem_cons.mp (hperm.mem_iff.mpr hd) with h | h
        · rw [h]
        · exact List.rel_of_sorted_cons hsorted d h
      rw [processDiseaseResponse_of_sorted response input rest top hresponse hs]
      refine ⟨top :: rest, top, hperm, hsorted, rfl, htop, hmax, rfl, ?_, ?_⟩
      · simp
      · intro hfalse
        simp only at hfalse
        simp [hfalse]

theorem processDiseaseResponse_sorts_and_thresholds_witness :
    ({ healthAssessment := none } : PlantIdResponse).healthAssessment = none ∧
      processDiseaseResponse { healthAssessment := none } =
        { isHealthy := true, diseases := [], suggestions := healthyMessage } ∧
      ∃ (input sorted : List PlantIdDisease) (top : PlantIdDisease),
        input ≠ [] ∧ sampleDetection.healthAssessment = some (some input) ∧
        sorted.Perm input ∧ sorted.head? = some top ∧
        (processDiseaseResponse sampleDetection).diseases = sorted.map formatDisease ∧
        ((processDiseaseResponse sampleDetection).isHealthy = true ↔
          top.probability < 0.15) := by
  refine ⟨rfl,
    (processDiseaseResponse_sorts_and_thresholds { healthAssessment := none }).1 (Or.inl rfl),
    ?_⟩
  obtain ⟨sorted, top, hperm, -, hhead, -, -, hdiseases, hhealthy, -⟩ :=
    (processDiseaseResponse_sorts_and_thresholds sampleDetection).2 _ (by simp) rfl
  exact ⟨_, sorted, top, by simp, rfl, hperm, hhead, hdiseases, hhealthy⟩

/-! ## Search: `ILIKE` against `%query%` -/

theorem toNat_ofNat_small (n : Nat) (h : n < 55296) : (Char.ofNat n).toNat = n := by
  unfold Char.ofNat
  have hv : n.isValidChar := Or.inl h
  simp only [hv, dite_true, Char.toNat, Char.ofNatAux]
  rfl

/-- Folding the case never produces a character below `a` from another one. -/
theorem toLower_eq_below (c x : Char) (hx : x.toNat < 97) (h : c.toLower = x) : c = x := by
  unfold Char.toLower at h
  simp only at h
  by_cases hc : c.toNat ≥ 65 ∧ c.toNat ≤ 90
  · rw [if_pos hc] at h
    have := congrArg Char.toNat h
    rw [toNat_ofNat_small _ (by omega)] at this
    omega
  · rw [if_neg hc] at h
    exact h

/-- A character without special meaning in a `LIKE` pattern. -/
theorem toLower_plain (c : Char) (h : c ≠ '%' ∧ c ≠ '_' ∧ c ≠ '\\') :
    c.toLower ≠ '%' ∧ c.toLower ≠ '_' ∧ c.toLower ≠ '\\' :=
  ⟨fun hc => h.1 (toLower_eq_below c '%' (by decide) hc),
    fun hc => h.2.1 (toLower_eq_below c '_' (by decide) hc),
    fun hc => h.2.2 (toLower_eq_below c '\\' (by decide) hc)⟩

theorem parseLike_plain (cs : List Char)
    (h : ∀ c ∈ cs, c ≠ '%' ∧ c ≠ '_' ∧ c ≠ '\\') :
    parseLike (cs ++ ['%']) = cs.map LikeToken.literal ++ [LikeToken.anySequence] := by
  induction cs with
  | nil => simp [parseLike]
  | cons c cs ih =>
    have hc := h c (List.mem_cons_self _ _)
    have ih2 := ih (fun x hx => h x (List.mem_cons_of_mem _ hx))
    cases cs with
    | nil => simp [parseLike, hc.1, hc.2.1, hc.2.2]
    | cons d ds =>
      simp only [List.cons_append, List.map_cons] at ih2 ⊢
      rw [parseLike]
      simp only [hc.1, hc.2.1, hc.2.2, if_false]
      rw [ih2]

theorem parseLike_percent (cs : List Char) (hne : cs ≠ []) :
    parseLike ('%' :: cs) = LikeToken.anySequence :: parseLike cs := by
  cases cs with
  | nil => exact absurd rfl hne
  | cons d ds =>
    rw [parseLike]
    simp

theorem likeMatch_literals (cs text : List Char) :
    likeMatch (cs.map LikeToken.literal ++ [LikeToken.anySequence]) text = true ↔
      cs <+: text := by
  induction cs generalizing text with
  | nil =>
    simp only [List.map_nil, List.nil_append, likeMatch, List.any_eq_true, List.nil_prefix,
      iff_true]
    exact ⟨[], (List.mem_tails _ _).mpr List.nil_suffix, by simp [likeMatch]⟩
  | cons c cs ih =>
    cases text with
    | nil => simp [likeMatch]
    | cons t ts =>
      have ih2 := ih ts
      simp only [List.map_cons, List.cons_append, likeMatch, Bool.and_eq_true, beq_iff_eq,
        List.cons_prefix_cons]
      exact and_congr_right (fun _ => ih2)

theorem likeMatch_anySequence (tokens : List LikeToken) (text : List Char) :
    likeMatch (LikeToken.anySequence :: tokens) text = true ↔
      ∃ rest, rest <:+ text ∧ likeMatch tokens rest = true := by
  simp only [likeMatch, List.any_eq_true, List.mem_tails]

/-- For a query without `%`, `_` and backslash, `ILIKE '%query%'` holds exactly
when the case-folded query is a contiguous part of the case-folded text. -/
theorem iLike_searchTerm_plain (text query : String)
    (hplain : ∀ c ∈ query.data, c ≠ '%' ∧ c ≠ '_' ∧ c ≠ '\\') :
    iLike text (searchTerm query) = true ↔
      query.data.map Char.toLower <:+: text.data.map Char.toLower := by
  have hdata : (searchTerm query).data.map Char.toLower =
      '%' :: (query.data.map Char.toLower ++ ['%']) := by
    simp only [searchTerm, String.data_append, List.map_append]
    rfl
  have hlower : ∀ c ∈ query.data.map Char.toLower, c ≠ '%' ∧ c ≠ '_' ∧ c ≠ '\\' := by
    intro c hc
    obtain ⟨x, hx, rfl⟩ := List.mem_map.mp hc
    exact toLower_plain x (hplain x hx)
  unfold iLike
  rw [hdata, parseLike_percent _ (by simp), parseLike_plain _ hlower, likeMatch_anySequence]
  simp only [likeMatch_literals]
  rw [List.infix_iff_prefix_suffix]
  constructor
  · rintro ⟨rest, hsuffix, hprefix⟩
    exact ⟨rest, hprefix, hsuffix⟩
  · rintro ⟨rest, hprefix, hsuffix⟩
    exact ⟨rest, hsuffix, hprefix⟩

/-- The answer of `searchDiseases` to a query of at least two code units and
a valid type. -/
theorem searchDiseases_valid (db : Db) (type query : String)
    (hlen : 2 ≤ (codeUnits query).length)
    (htype : type = "plant" ∨ type = "livestock" ∨ type = "all") :
    searchDiseases db type query =
      .search
        (if type = "plant" ∨ type = "all" then
          orderByName (db.plantDiseases.filter (searchMatches query)) else [])
        (if type = "livestock" ∨ type = "all" then
          orderByName (db.livestockDiseases.filter (searchMatches query)) else [])
        ((if type = "plant" ∨ type = "all" then
            orderByName (db.plantDiseases.filter (searchMatches query)) else []).length +
          (if type = "livestock" ∨ type = "all" then
            orderByName (db.livestockDiseases.filter (searchMatches query)) else []).length) := by
  have h1 : ¬ (codeUnits query).length < 2 := by omega
  have h2 : ¬ (type ≠ "plant" ∧ type ≠ "livestock" ∧ type ≠ "all") := by
    rintro ⟨a, b, c⟩
    rcases htype with h | h | h
    · exact a h
    · exact b h
    · exact c h
  unfold searchDiseases
  rw [if_neg h1, if_neg h2]

theorem likeMatch_anySequence_of (tokens : List LikeToken) (text : List Char)
    (h : likeMatch tokens text = true) :
    likeMatch (LikeToken.anySequence :: tokens) text = true :=
  (likeMatch_anySequence tokens text).mpr ⟨text, List.suffix_refl text, h⟩

/-- The search term of the query "%%" matches every text. -/
theorem searchMatches_percent (e : DiseaseEntry) : searchMatches "%%" e = true := by
  have hparse : parseLike ((searchTerm "%%").data.map Char.toLower) =
      [.anySequence, .anySequence, .anySequence, .anySequence] := by decide
  have hall : ∀ text : List Char,
      likeMatch [.anySequence, .anySequence, .anySequence, .anySequence] text = true := by
    intro text
    apply likeMatch_anySequence_of
    apply likeMatch_anySequence_of
    apply likeMatch_anySequence_of
    exact (likeMatch_literals [] text).mpr List.nil_prefix
  simp [searchMatches, iLike, hparse, hall]

set_option maxRecDepth 20000

/-- C24, evaluated: the query "l_te" is no part of the name or description of
"Late Blight", in any letter case, yet `searchDiseases` returns that entry,
because `_` in the search term stands for any character; and on every catalog
the query "%%" returns the whole plant table, whether or not an entry contains
a percent sign. -/
theorem search_treats_wildcards :
    ¬ ("l_te".data.map Char.toLower <:+: lateBlight.name.data.map Char.toLower) ∧
      ¬ ("l_te".data.map Char.toLower <:+: lateBlight.description.data.map Char.toLower) ∧
      searchDiseases seedStore "plant" "l_te" = .search [lateBlight] [] 1 ∧
      ∀ db : Db, searchDiseases db "plant" "%%" =
        .search (orderByName db.plantDiseases) [] (orderByName db.plantDiseases).length := by
  refine ⟨by decide, by decide, by decide, ?_⟩
  intro db
  have hfilter : db.plantDiseases.filter (searchMatches "%%") = db.plantDiseases :=
    List.filter_eq_self.mpr (fun e _ => searchMatches_percent e)
  rw [searchDiseases_valid db "plant" "%%" (by decide) (Or.inl rfl), hfilter]
  simp

/-- The sample response: the more probable finding comes first and is named in
the suggestion. -/
theorem processDiseaseResponse_sample :
    (processDiseaseResponse sampleDetection).diseases.map (fun d => d.name) =
        ["Late Blight", "Powdery Mildew"] ∧
      (processDiseaseResponse sampleDetection).isHealthy = false ∧
      (processDiseaseResponse sampleDetection).suggestions =
        "Possible Late Blight detected. Follow treatment recommendations." := by
  have hs : List.insertionSort probabilityGe
      [ ({ name := "Powdery Mildew", probability := 1 / 10, description := none,
           treatmentChemical := none, prevention := none, similarImages := none } : PlantIdDisease)
      , { name := "Late Blight", probability := 87 / 100,
          description := some "Late blight of tomato",
          treatmentChemical := some ["copper", "mancozeb"], prevention := some ["rotate crops"],
          similarImages := none } ] =
      [ { name := "Late Blight", probability := 87 / 100,
          description := some "Late blight of tomato",
          treatmentChemical := some ["copper", "mancozeb"], prevention := some ["rotate crops"],
          similarImages := none }
      , { name := "Powdery Mildew", probability := 1 / 10, description := none,
          treatmentChemical := none, prevention := none, similarImages := none } ] := by
    simp [List.insertionSort, List.orderedInsert, probabilityGe]
    norm_num
  rw [processDiseaseResponse_of_sorted sampleDetection _ _ _ rfl hs]
  refine ⟨rfl, ?_, ?_⟩
  · have : ¬ ((87 / 100 : ℚ) < 0.15) := by norm_num
    simp [this]
  · have : ¬ ((87 / 100 : ℚ) < 0.15) := by norm_num
    simp [this]

end AgriHealth
